import Mathlib

/-!
# visualization-api: configuration resolution

A shallow embedding of `pkg/config/config.go` and of the start of
`pkg/cmd/visualizationapi/main.go`.

The configuration module reads every option through the viper library, which
merges three sources (command-line flags, environment variables, the
configuration file).  The three sources are explicit inputs here (`World`),
the lookups of viper and the conversions of its cast package are functions
over them, and the module-level pointer `singleToneConfig` is a value passed
in and out of `InitializeConfig`.
-/

namespace Config

/-! ## Config names -/

def logLevelConfigName : String := "log.level"
def logFileConfigName : String := "log.path"

def mysqlPortConfigName : String := "mysql.port"
def mysqlPasswordConfigName : String := "mysql.password"
def mysqlHostConfigName : String := "mysql.host"
def mysqlUserConfigName : String := "mysql.username"
def mysqlDatabaseConfigName : String := "mysql.database"

def httpPortConfigName : String := "http_endpoint.port"
def httpSecretConfigName : String := "http_endpoint.jwt_secret"

def openstackAuthURLConfigName : String := "openstack.auth_url"
def openstackUsernameConfigName : String := "openstack.username"
def openstackPasswordConfigName : String := "openstack.password"
def openstackProjectConfigName : String := "openstack.project_name"
def openstackDomainConfigName : String := "openstack.domain_name"

/-- The key of the console debug option, written as a literal in
`initializeCommandLineFlags` and in `InitializeConfig`. -/
def consoleDebugConfigName : String := "logging.consoleDebug"

/-- VisualizationAPIConfig is the struct that keeps all application config
options.  Go's `int` is read as an integer: no arithmetic is done on ports. -/
structure VisualizationAPIConfig where
  LogFilePath : String := ""
  LogLevel : String := ""
  ConsoleDebug : Bool := false
  MysqlHost : String := ""
  MysqlPassword : String := ""
  MysqlUsername : String := ""
  MysqlDatabaseName : String := ""
  MysqlPort : Int := 0
  HTTPPort : Int := 0
  JWTSecret : String := ""
  OpenstackAuthURL : String := ""
  OpenstackUsername : String := ""
  OpenstackPassword : String := ""
  OpenstackProject : String := ""
  OpenstackDomain : String := ""
  deriving DecidableEq, Repr

/-! ## Name derivation -/

/-- The replacer `strings.NewReplacer(".", "-", "_", "-")`: every old string
is a single byte, so the replacement is made byte by byte. -/
def flagReplacer (s : String) : String :=
  String.mk (s.data.map fun c => if c = '.' then '-' else if c = '_' then '-' else c)

/-- The replacer `strings.NewReplacer(".", "_")`. -/
def envReplacer (s : String) : String :=
  String.mk (s.data.map fun c => if c = '.' then '_' else c)

/-- Go's `strings.ToLower`, on the ASCII letters the keys are made of. -/
def toLower (s : String) : String := String.mk (s.data.map Char.toLower)

/-- Go's `strings.ToUpper`, on the ASCII letters the keys are made of. -/
def toUpper (s : String) : String := String.mk (s.data.map Char.toUpper)

/-! ## Values and conversions (package cast) -/

/-- A value as a source hands it to viper: a string, an integer, a boolean,
or `other` for what the conversions reject (lists, tables).  Floating-point
values of the configuration file are outside the model. -/
inductive Value where
  | str (s : String)
  | int (i : Int)
  | bool (b : Bool)
  | other
  deriving DecidableEq, Repr

/-- Go's `strconv.ParseBool`. -/
def parseBool (s : String) : Option Bool :=
  if s = "1" ∨ s = "t" ∨ s = "T" ∨ s = "TRUE" ∨ s = "true" ∨ s = "True" then some true
  else if s = "0" ∨ s = "f" ∨ s = "F" ∨ s = "FALSE" ∨ s = "false" ∨ s = "False" then some false
  else none

/-- The conversion `cast.ToString`: an error of the conversion gives `""`,
and so does nil. -/
def castToString : Option Value → String
  | some (.str s) => s
  | some (.int i) => toString i
  | some (.bool b) => if b then "true" else "false"
  | some .other => ""
  | none => ""

/-- The conversion `cast.ToInt`: a string goes through `strconv.ParseInt`,
taken as the parameter `parseInt`; an error of the conversion gives `0`, and
so does nil. -/
def castToInt (parseInt : String → Option Int) : Option Value → Int
  | some (.str s) => (parseInt s).getD 0
  | some (.int i) => i
  | some (.bool b) => if b then 1 else 0
  | some .other => 0
  | none => 0

/-- The conversion `cast.ToBool`: an error of the conversion gives `false`,
and so does nil. -/
def castToBool : Option Value → Bool
  | some (.str s) => (parseBool s).getD false
  | some (.int i) => i ≠ 0
  | some (.bool b) => b
  | some .other => false
  | none => false

/-! ## Flags (package pflag) -/

/-- The type a flag was defined with: `flag.String`, `flag.Int`, `flag.Bool`. -/
inductive FlagType where
  | string
  | int
  | bool
  deriving DecidableEq, Repr

/-- One flag definition: its name, its type and its default value. -/
structure FlagDef where
  Name : String
  typ : FlagType
  DefValue : Value
  deriving DecidableEq, Repr

/-- The package-level flag definitions of `config.go`, in source order. -/
def flagDefinitions : List FlagDef :=
  [ ⟨flagReplacer logFileConfigName, .string, .str ""⟩,
    ⟨flagReplacer mysqlPortConfigName, .int, .int 0⟩,
    ⟨flagReplacer mysqlPasswordConfigName, .string, .str ""⟩,
    ⟨flagReplacer mysqlHostConfigName, .string, .str ""⟩,
    ⟨flagReplacer mysqlUserConfigName, .string, .str ""⟩,
    ⟨flagReplacer mysqlDatabaseConfigName, .string, .str ""⟩,
    ⟨"debug", .bool, .bool false⟩,
    ⟨flagReplacer httpPortConfigName, .int, .int 0⟩,
    ⟨flagReplacer httpSecretConfigName, .string, .str ""⟩,
    ⟨flagReplacer openstackAuthURLConfigName, .string, .str ""⟩,
    ⟨flagReplacer openstackUsernameConfigName, .string, .str ""⟩,
    ⟨flagReplacer openstackPasswordConfigName, .string, .str ""⟩,
    ⟨flagReplacer openstackProjectConfigName, .string, .str ""⟩,
    ⟨flagReplacer openstackDomainConfigName, .string, .str ""⟩ ]

/-- A flag of the command-line flag set once the arguments are parsed:
`Changed` tells whether it was given, `Value` is the given value, or the
default one. -/
structure Flag where
  Name : String
  typ : FlagType
  Changed : Bool
  Value : Value
  deriving DecidableEq, Repr

/-- Go's `flag.Lookup`: the flag of that name, nil when no flag of that name is
defined.  `cli` gives, by flag name, the value met on the command line. -/
def Lookup (cli : String → Option Value) (name : String) : Option Flag :=
  (flagDefinitions.find? fun d => d.Name = name).map fun d =>
    { Name := d.Name, typ := d.typ, Changed := (cli name).isSome,
      Value := (cli name).getD d.DefValue }

/-! ## The viper registry -/

/-- What viper holds once `InitializeConfig` has set it up: the flags bound to
keys, the environment (`os.Getenv`, `""` for a variable that is not set), the
configuration file read (by lower-cased dotted key), and the string-to-integer
reading of `strconv.ParseInt`. Automatic environment lookup is on and the key
replacer is `envReplacer`. -/
structure Viper where
  pflags : List (String × Flag)
  env : String → String
  config : String → Option Value
  parseInt : String → Option Int

/-- The environment variable of a key: the replacer applied, then `os.Getenv`. -/
def Viper.getEnv (v : Viper) (key : String) : String :=
  v.env (envReplacer key)

/-- The value viper reads out of a bound flag, by the flag's type. -/
def Viper.flagValue (v : Viper) (flag : Flag) : Value :=
  match flag.typ with
  | .int => .int (castToInt v.parseInt (some flag.Value))
  | .bool => .bool (castToBool (some flag.Value))
  | .string => .str (castToString (some flag.Value))

/-- The parent paths of a dotted key, shortest first: what stands before each
of its dots (`mysql` for `mysql.port`). The second argument is the part of the
key already read. -/
def parentKeys : List Char → List Char → List String
  | [], _ => []
  | c :: cs, read =>
    if c = '.' then String.mk read :: parentKeys cs (read ++ [c])
    else parentKeys cs (read ++ [c])

/-- The check `isPathShadowedInAutoEnv` of viper: under automatic environment
lookup a nested key is hidden as soon as the environment variable of one of
its parent paths is not empty. -/
def Viper.isPathShadowedInAutoEnv (v : Viper) (lcaseKey : String) : Bool :=
  (parentKeys lcaseKey.data []).any fun parentKey => v.getEnv (toUpper parentKey) ≠ ""

/-- The lookup `find` of viper for a lower-cased key: a bound flag that was
given on the command line, then a non-empty environment variable, then nil
when a parent path of the key is hidden by the environment, then the
configuration file, then the default of a bound flag, then nil. Overrides,
aliases, key/value stores and defaults are never set by this program, and no
key it binds a flag to is a parent path of another. -/
def Viper.find (v : Viper) (lcaseKey : String) : Option Value :=
  match (v.pflags.lookup lcaseKey).filter (fun flag => flag.Changed) with
  | some flag => some (v.flagValue flag)
  | none =>
    let val := v.getEnv (toUpper lcaseKey)
    if val ≠ "" then some (.str val)
    else if v.isPathShadowedInAutoEnv lcaseKey then none
    else
      match v.config lcaseKey with
      | some val => some val
      | none =>
        match v.pflags.lookup lcaseKey with
        | some flag => some (v.flagValue flag)
        | none => none

def Viper.Get (v : Viper) (key : String) : Option Value := v.find (toLower key)

def Viper.GetString (v : Viper) (key : String) : String := castToString (v.Get key)

def Viper.GetInt (v : Viper) (key : String) : Int := castToInt v.parseInt (v.Get key)

def Viper.GetBool (v : Viper) (key : String) : Bool := castToBool (v.Get key)

/-! ## Errors -/

/-- Modelled from the spec: the type ParseError and its constructor
NewParseError belong to a file of package config that is not among the
sources. The spec lists what a ParseError identifies: the logical field name,
the file key, the group, the environment-variable name and the flag name; that
is the order of the five arguments of every call of NewParseError. -/
structure ParseError where
  name : String
  fileKey : String
  group : String
  envName : String
  flagName : String
  deriving DecidableEq, Repr

/-- Modelled from the spec: the constructor of ParseError, keeping its five
arguments. -/
def NewParseError (name fileKey group envName flagName : String) : ParseError :=
  { name := name, fileKey := fileKey, group := group, envName := envName,
    flagName := flagName }

/-- The key of the configuration file a ParseError names: the option `fileKey`
of the section `group`, written with a dot as the config names are (the
comment heading them: for `mysql.port` the config parser looks for the `port`
option in the `mysql` section). -/
def ParseError.configKey (e : ParseError) : String := e.group ++ "." ++ e.fileKey

/-- What `InitializeConfig` returns when it fails: the error of a binding (the
flag of that key is nil), the error of reading the configuration file, or a
ParseError. -/
inductive InitError where
  | bind (key : String)
  | read
  | parse (e : ParseError)
  deriving DecidableEq, Repr

/-! ## Binding the flags -/

/-- The method `viper.BindPFlag`: an error when the flag is nil, otherwise the
flag is recorded under the lower-cased key (a later binding of a key hides an
earlier one). -/
def BindPFlag (pflags : List (String × Flag)) (key : String) (flag : Option Flag) :
    Except InitError (List (String × Flag)) :=
  match flag with
  | none => .error (.bind key)
  | some f => .ok ((toLower key, f) :: pflags)

/-- The list `flagsToBind` of `initializeCommandLineFlags`. -/
def flagsToBind : List String :=
  [ logFileConfigName,
    mysqlHostConfigName,
    mysqlPortConfigName,
    mysqlUserConfigName,
    mysqlDatabaseConfigName,
    mysqlPasswordConfigName,
    httpPortConfigName,
    httpSecretConfigName,
    openstackAuthURLConfigName,
    openstackUsernameConfigName,
    openstackPasswordConfigName,
    openstackProjectConfigName,
    openstackDomainConfigName ]

/-- The loop of `initializeCommandLineFlags` over the keys still to bind: it
returns at the first binding that fails. -/
def bindFlags (cli : String → Option Value) :
    List String → List (String × Flag) → Except InitError (List (String × Flag))
  | [], pflags => .ok pflags
  | configName :: rest, pflags =>
    match BindPFlag pflags configName (Lookup cli (flagReplacer configName)) with
    | .error err => .error err
    | .ok pflags => bindFlags cli rest pflags

def initializeCommandLineFlags (cli : String → Option Value) (pflags : List (String × Flag)) :
    Except InitError (List (String × Flag)) :=
  match bindFlags cli flagsToBind pflags with
  | .error err => .error err
  | .ok pflags => BindPFlag pflags "logging.consoleDebug" (Lookup cli "debug")

/-! ## The group validators

Each one reads `singleToneConfig`, passed as `c`, and returns the error (nil
is `none`) with the configuration as it has left it. -/

def parseLoggingValues (v : Viper) (c : VisualizationAPIConfig) :
    Option ParseError × VisualizationAPIConfig :=
  let logFileConfigValue := v.GetString logFileConfigName
  if logFileConfigValue = "" then
    (some (NewParseError "logPath" "path" "log" "LOG_PATH" "--log-path"), c)
  else
  let c := { c with LogFilePath := logFileConfigValue }
  let logLevelConfigValue := v.GetString logLevelConfigName
  if logLevelConfigValue = "" then
    (some (NewParseError "logLevel" "level" "log" "LOG_LEVEL" ""), c)
  else
  let c := { c with LogLevel := logLevelConfigValue }
  (none, c)

def parseMysqlValues (v : Viper) (c : VisualizationAPIConfig) :
    Option ParseError × VisualizationAPIConfig :=
  let mysqlHostConfigValue := v.GetString mysqlHostConfigName
  if mysqlHostConfigValue = "" then
    (some (NewParseError "mysqlHost" "host" "mysql" "MYSQL_HOST" "--mysql-host"), c)
  else
  let c := { c with MysqlHost := mysqlHostConfigValue }
  let mysqlUserConfigValue := v.GetString mysqlUserConfigName
  if mysqlUserConfigValue = "" then
    (some (NewParseError "mysqlUser" "username" "mysql" "MYSQL_USERNAME" "--mysql-username"), c)
  else
  let c := { c with MysqlUsername := mysqlUserConfigValue }
  let mysqlPasswordConfigValue := v.GetString mysqlPasswordConfigName
  if mysqlPasswordConfigValue = "" then
    (some (NewParseError "MysqlPassword" "password" "mysql" "MYSQL_PASSWORD" "--mysql-password"), c)
  else
  let c := { c with MysqlPassword := mysqlPasswordConfigValue }
  let mysqlDatabaseConfigValue := v.GetString mysqlDatabaseConfigName
  if mysqlDatabaseConfigValue = "" then
    (some (NewParseError "MysqlDatabase" "database" "mysql" "MYSQL_DATABASE" "--mysql-database"), c)
  else
  let c := { c with MysqlDatabaseName := mysqlDatabaseConfigValue }
  let mysqlPortConfigValue := v.GetInt mysqlPortConfigName
  if mysqlPortConfigValue = 0 then
    (some (NewParseError "MysqlPort" "port" "mysql" "MYSQL_PORT" "--mysql-port"), c)
  else
  let c := { c with MysqlPort := mysqlPortConfigValue }
  (none, c)

def parseHTTPEndpointValues (v : Viper) (c : VisualizationAPIConfig) :
    Option ParseError × VisualizationAPIConfig :=
  let httpPortConfigValue := v.GetInt httpPortConfigName
  if httpPortConfigValue = 0 then
    (some (NewParseError "httpEndpointPort" "port" "http_endpoint" "HTTP_ENDPOINT_PORT"
      "--http-endpoint-port"), c)
  else
  let c := { c with HTTPPort := httpPortConfigValue }
  let httpSecretConfigValue := v.GetString httpSecretConfigName
  if httpSecretConfigValue = "" then
    (some (NewParseError "httpEndpointSecret" "secret" "http_endpoint"
      "HTTP_ENDPOINT_JWT_SECRET" "--http-endpoint-jwt-secret"), c)
  else
  let c := { c with JWTSecret := httpSecretConfigValue }
  (none, c)

def parseOpenstackValues (v : Viper) (c : VisualizationAPIConfig) :
    Option ParseError × VisualizationAPIConfig :=
  let openstackAuthURLConfigValue := v.GetString openstackAuthURLConfigName
  if openstackAuthURLConfigValue = "" then
    (some (NewParseError "OpenstackAuthURL" "auth_url" "openstack"
      "OPENSTACK_AUTH_URL" "--openstack-auth-url"), c)
  else
  let c := { c with OpenstackAuthURL := openstackAuthURLConfigValue }
  let openstackPasswordConfigValue := v.GetString openstackPasswordConfigName
  if openstackPasswordConfigValue = "" then
    (some (NewParseError "OpenstackPassword" "password" "openstack"
      "OPENSTACK_PASSWORD" "--openstack-password"), c)
  else
  let c := { c with OpenstackPassword := openstackPasswordConfigValue }
  let openstackUsernameConfigValue := v.GetString openstackUsernameConfigName
  if openstackUsernameConfigValue = "" then
    (some (NewParseError "OpenstackUsername" "username" "openstack"
      "OPENSTACK_USERNAME" "--openstack-username"), c)
  else
  let c := { c with OpenstackUsername := openstackUsernameConfigValue }
  let openstackProjectConfigValue := v.GetString openstackProjectConfigName
  if openstackProjectConfigValue = "" then
    (some (NewParseError "OpenstackProject" "project" "openstack"
      "OPENSTACK_PROJECT_NAME" "--openstack-project-name"), c)
  else
  let c := { c with OpenstackProject := openstackProjectConfigValue }
  let openstackDomainConfigValue := v.GetString openstackDomainConfigName
  if openstackDomainConfigValue = "" then
    (some (NewParseError "OpenstackDomain" "domain_name" "openstack"
      "OPENSTACK_DOMAIN_NAME" "--openstack-domain-name"), c)
  else
  let c := { c with OpenstackDomain := openstackDomainConfigValue }
  (none, c)

/-! ## InitializeConfig -/

/-- What a run of `InitializeConfig` reads: the command line once parsed (by
flag name, the value given; `none` for a flag that was not given), the
environment (`os.Getenv`), the outcome of `viper.ReadInConfig` (`none` when
the file cannot be found or parsed, otherwise its content by lower-cased
dotted key), and `strconv.ParseInt`. -/
structure World where
  cli : String → Option Value
  env : String → String
  file : Option (String → Option Value)
  parseInt : String → Option Int

/-- InitializeConfig parses the configuration from the config file, the
environment variables and the flags. It returns the error (nil is `none`) and
the new content of the module-level pointer `singleToneConfig`, whose old
content is replaced at once by a default initialised struct. -/
def InitializeConfig (w : World) (_singleToneConfig : Option VisualizationAPIConfig) :
    Option InitError × Option VisualizationAPIConfig :=
  let singleToneConfig : VisualizationAPIConfig := {}
  match initializeCommandLineFlags w.cli [] with
  | .error err => (some err, some singleToneConfig)
  | .ok pflags =>
  match w.file with
  | none => (some .read, some singleToneConfig)
  | some config =>
  let v : Viper := { pflags := pflags, env := w.env, config := config, parseInt := w.parseInt }
  match parseLoggingValues v singleToneConfig with
  | (some err, singleToneConfig) => (some (.parse err), some singleToneConfig)
  | (none, singleToneConfig) =>
  match parseMysqlValues v singleToneConfig with
  | (some err, singleToneConfig) => (some (.parse err), some singleToneConfig)
  | (none, singleToneConfig) =>
  match parseHTTPEndpointValues v singleToneConfig with
  | (some err, singleToneConfig) => (some (.parse err), some singleToneConfig)
  | (none, singleToneConfig) =>
  match parseOpenstackValues v singleToneConfig with
  | (some err, singleToneConfig) => (some (.parse err), some singleToneConfig)
  | (none, singleToneConfig) =>
  (none, some { singleToneConfig with ConsoleDebug := v.GetBool "logging.consoleDebug" })

/-- GetConfig returns the structure with all application configuration. -/
def GetConfig (singleToneConfig : Option VisualizationAPIConfig) :
    Option VisualizationAPIConfig :=
  singleToneConfig

/-! ## The field catalog

The fields of the configuration, as the validators read and store them. -/

/-- The fields: the fourteen required ones in the order in which
`InitializeConfig` validates them, then the console debug option. -/
inductive Field where
  | logPath
  | logLevel
  | mysqlHost
  | mysqlUser
  | mysqlPassword
  | mysqlDatabase
  | mysqlPort
  | httpPort
  | httpSecret
  | openstackAuthURL
  | openstackPassword
  | openstackUsername
  | openstackProject
  | openstackDomain
  | consoleDebug
  deriving DecidableEq, Repr

namespace Field

/-- The required fields in validation order: `parseLoggingValues`,
`parseMysqlValues`, `parseHTTPEndpointValues`, `parseOpenstackValues`, each in
the order of its statements. -/
def validationOrder : List Field :=
  [ logPath, logLevel,
    mysqlHost, mysqlUser, mysqlPassword, mysqlDatabase, mysqlPort,
    httpPort, httpSecret,
    openstackAuthURL, openstackPassword, openstackUsername, openstackProject,
    openstackDomain ]

/-- The key under which the code reads the field from viper. -/
def key : Field → String
  | logPath => logFileConfigName
  | logLevel => logLevelConfigName
  | mysqlHost => mysqlHostConfigName
  | mysqlUser => mysqlUserConfigName
  | mysqlPassword => mysqlPasswordConfigName
  | mysqlDatabase => mysqlDatabaseConfigName
  | mysqlPort => mysqlPortConfigName
  | httpPort => httpPortConfigName
  | httpSecret => httpSecretConfigName
  | openstackAuthURL => openstackAuthURLConfigName
  | openstackPassword => openstackPasswordConfigName
  | openstackUsername => openstackUsernameConfigName
  | openstackProject => openstackProjectConfigName
  | openstackDomain => openstackDomainConfigName
  | consoleDebug => consoleDebugConfigName

/-- The type the code reads the field with: `GetString`, `GetInt`, `GetBool`. -/
def typ : Field → FlagType
  | mysqlPort => .int
  | httpPort => .int
  | consoleDebug => .bool
  | _ => .string

/-- The value the code reads for the field. -/
def resolved (v : Viper) (f : Field) : Value :=
  match f.typ with
  | .string => .str (v.GetString f.key)
  | .int => .int (v.GetInt f.key)
  | .bool => .bool (v.GetBool f.key)

/-- The member of the struct the code stores the field in. -/
def stored (f : Field) (c : VisualizationAPIConfig) : Value :=
  match f with
  | logPath => .str c.LogFilePath
  | logLevel => .str c.LogLevel
  | mysqlHost => .str c.MysqlHost
  | mysqlUser => .str c.MysqlUsername
  | mysqlPassword => .str c.MysqlPassword
  | mysqlDatabase => .str c.MysqlDatabaseName
  | mysqlPort => .int c.MysqlPort
  | httpPort => .int c.HTTPPort
  | httpSecret => .str c.JWTSecret
  | openstackAuthURL => .str c.OpenstackAuthURL
  | openstackPassword => .str c.OpenstackPassword
  | openstackUsername => .str c.OpenstackUsername
  | openstackProject => .str c.OpenstackProject
  | openstackDomain => .str c.OpenstackDomain
  | consoleDebug => .bool c.ConsoleDebug

/-- The zero value of the field's type. -/
def zero (f : Field) : Value :=
  match f.typ with
  | .string => .str ""
  | .int => .int 0
  | .bool => .bool false

/-- The environment variable viper looks up for the field: the key in upper
case, the replacer applied. -/
def envName (f : Field) : String := envReplacer (toUpper (toLower f.key))

/-- The name of the flag bound to the key of the field by
`initializeCommandLineFlags`; no flag is bound to the key of the log level. -/
def flagName : Field → Option String
  | logLevel => none
  | consoleDebug => some "debug"
  | f => some (flagReplacer f.key)

/-- The ParseError the validators return for a required field. -/
def error : Field → Option ParseError
  | logPath => some (NewParseError "logPath" "path" "log" "LOG_PATH" "--log-path")
  | logLevel => some (NewParseError "logLevel" "level" "log" "LOG_LEVEL" "")
  | mysqlHost => some (NewParseError "mysqlHost" "host" "mysql" "MYSQL_HOST" "--mysql-host")
  | mysqlUser =>
    some (NewParseError "mysqlUser" "username" "mysql" "MYSQL_USERNAME" "--mysql-username")
  | mysqlPassword =>
    some (NewParseError "MysqlPassword" "password" "mysql" "MYSQL_PASSWORD" "--mysql-password")
  | mysqlDatabase =>
    some (NewParseError "MysqlDatabase" "database" "mysql" "MYSQL_DATABASE" "--mysql-database")
  | mysqlPort => some (NewParseError "MysqlPort" "port" "mysql" "MYSQL_PORT" "--mysql-port")
  | httpPort =>
    some (NewParseError "httpEndpointPort" "port" "http_endpoint" "HTTP_ENDPOINT_PORT"
      "--http-endpoint-port")
  | httpSecret =>
    some (NewParseError "httpEndpointSecret" "secret" "http_endpoint"
      "HTTP_ENDPOINT_JWT_SECRET" "--http-endpoint-jwt-secret")
  | openstackAuthURL =>
    some (NewParseError "OpenstackAuthURL" "auth_url" "openstack"
      "OPENSTACK_AUTH_URL" "--openstack-auth-url")
  | openstackPassword =>
    some (NewParseError "OpenstackPassword" "password" "openstack"
      "OPENSTACK_PASSWORD" "--openstack-password")
  | openstackUsername =>
    some (NewParseError "OpenstackUsername" "username" "openstack"
      "OPENSTACK_USERNAME" "--openstack-username")
  | openstackProject =>
    some (NewParseError "OpenstackProject" "project" "openstack"
      "OPENSTACK_PROJECT_NAME" "--openstack-project-name")
  | openstackDomain =>
    some (NewParseError "OpenstackDomain" "domain_name" "openstack"
      "OPENSTACK_DOMAIN_NAME" "--openstack-domain-name")
  | consoleDebug => none

/-- The required fields validated before the field. -/
def before (f : Field) : List Field := validationOrder.takeWhile fun g => g ≠ f

end Field

/-- The flags bound once `initializeCommandLineFlags` has run on an empty
registry. -/
def boundFlags (cli : String → Option Value) : List (String × Flag) :=
  match initializeCommandLineFlags cli [] with
  | .ok pflags => pflags
  | .error _ => []

/-- The registry `InitializeConfig` reads the values from, for a world whose
configuration file was read as `config`. -/
def World.viper (w : World) (config : String → Option Value) : Viper :=
  { pflags := boundFlags w.cli, env := w.env, config := config, parseInt := w.parseInt }

/-- The earliest required field, in validation order, that resolves to the
zero value of its type. -/
def firstUnresolved (v : Viper) : Option Field :=
  Field.validationOrder.find? fun f => f.resolved v = f.zero

/-- The environment variable named after the group of the field, the parent
path of its key (`MYSQL` for `mysql.port`): when it is not empty, viper takes
the key of the field as hidden. -/
def Field.groupEnvName (f : Field) : String :=
  envReplacer (toUpper (String.mk ((toLower f.key).data.takeWhile fun c => c ≠ '.')))

/-- The value the highest-ranked source gives for a field: the flag bound to
its key when it was given, otherwise a non-empty environment variable,
otherwise nothing when the variable of its group is not empty, otherwise the
entry of the configuration file; `none` when no source has it. -/
def precedence (w : World) (config : String → Option Value) (f : Field) : Option Value :=
  match f.flagName.bind w.cli with
  | some x => some x
  | none =>
    if w.env f.envName ≠ "" then some (.str (w.env f.envName))
    else if w.env f.groupEnvName ≠ "" then none
    else config (toLower f.key)

/-- Whether a value is of the type a flag or a field is defined with. -/
def Value.ofType : Value → FlagType → Bool
  | .str _, .string => true
  | .int _, .int => true
  | .bool _, .bool => true
  | _, _ => false

/-- The conversion to the type of the field. -/
def Field.coerce (parseInt : String → Option Int) (f : Field) (x : Option Value) : Value :=
  match f.typ with
  | .string => .str (castToString x)
  | .int => .int (castToInt parseInt x)
  | .bool => .bool (castToBool x)

/-- A field absent from the three sources. -/
def absent (w : World) (config : String → Option Value) (f : Field) : Prop :=
  f.flagName.bind w.cli = none ∧ w.env f.envName = "" ∧ config (toLower f.key) = none

instance (w : World) (config : String → Option Value) (f : Field) : Decidable (absent w config f) := by
  unfold absent; infer_instance

/-! ## Concrete sources -/

/-- The value of a list of decimal digits, `none` when a character is no
digit. -/
def digitsValue : List Char → Nat → Option Nat
  | [], acc => some acc
  | c :: cs, acc => if c.isDigit then digitsValue cs (10 * acc + (c.toNat - 48)) else none

/-- A reading of the unsigned decimal numerals of at most eighteen digits
without a leading zero, with the value `strconv.ParseInt` gives them; every
other string is rejected here. It stands for `strconv.ParseInt` at the concrete
inputs below, which are such numerals or hold a letter that no numeral has. -/
def parseDecimal (s : String) : Option Int :=
  match s.data with
  | [] => none
  | [c] => (digitsValue [c] 0).map Int.ofNat
  | c :: cs =>
    if c = '0' ∨ 18 < (c :: cs).length then none
    else (digitsValue (c :: cs) 0).map Int.ofNat

/-- A configuration file that supplies every required field. -/
def fullFile : List (String × Value) :=
  [ ("log.path", .str "/var/log/visualization-api.log"),
    ("log.level", .str "info"),
    ("mysql.host", .str "db"),
    ("mysql.username", .str "api"),
    ("mysql.password", .str "pw"),
    ("mysql.database", .str "visualization"),
    ("mysql.port", .int 3306),
    ("http_endpoint.port", .int 8080),
    ("http_endpoint.jwt_secret", .str "s3cret"),
    ("openstack.auth_url", .str "http://keystone:5000/v3"),
    ("openstack.password", .str "ospw"),
    ("openstack.username", .str "admin"),
    ("openstack.project_name", .str "admin"),
    ("openstack.domain_name", .str "Default") ]

/-- The world of a command line, an environment and a configuration file,
each given as a list of entries. -/
def worldOf (cli : List (String × Value)) (env : List (String × String))
    (file : List (String × Value)) : World :=
  { cli := fun n => cli.lookup n,
    env := fun n => (env.lookup n).getD "",
    file := some fun k => file.lookup k,
    parseInt := parseDecimal }

/-- The configuration file `fullFile` without the entries of some keys. -/
def fileWithout (keys : List String) : List (String × Value) :=
  fullFile.filter fun entry => !keys.contains entry.1

/-- The world of the scenario of the precedence law: the file sets
`mysql.port` to 3306, the environment sets `MYSQL_PORT` to 3307, the flag
`--mysql-port=3308` is given. -/
def overrideWorld : World :=
  worldOf [("mysql-port", .int 3308)] [("MYSQL_PORT", "3307")] fullFile

/-- A world whose only source is the full file without `log.level`. -/
def noLogLevelWorld : World := worldOf [] [] (fileWithout ["log.level"])

/-- A world whose only source is the full file without `http_endpoint.port`. -/
def noHTTPPortWorld : World := worldOf [] [] (fileWithout ["http_endpoint.port"])

/-- A world whose only source is the full file without `log.path` and
`mysql.host`. -/
def noLogPathNoMysqlHostWorld : World := worldOf [] [] (fileWithout ["log.path", "mysql.host"])

/-- A world whose only source is the full file, with `mysql.port` set to 0. -/
def zeroPortWorld : World :=
  worldOf [] [] (("mysql.port", .int 0) :: fileWithout ["mysql.port"])

/-- A world whose environment sets `MYSQL` and gives the database host, user,
password and name by their own variables, over the full file, which sets
`mysql.port` to 3306. -/
def shadowedPortWorld : World :=
  worldOf []
    [("MYSQL", "x"), ("MYSQL_HOST", "db"), ("MYSQL_USERNAME", "api"), ("MYSQL_PASSWORD", "pw"),
      ("MYSQL_DATABASE", "visualization")]
    fullFile

/-- A world whose environment sets `MYSQL_PORT` to a string that is no number,
over the full file. -/
def invalidEnvPortWorld : World := worldOf [] [("MYSQL_PORT", "abc")] fullFile

/-! ## The validators as a list of steps -/

/-- The assignment the validators make for a field once it is checked. -/
def Field.store (f : Field) (v : Viper) (c : VisualizationAPIConfig) : VisualizationAPIConfig :=
  match f with
  | .logPath => { c with LogFilePath := v.GetString logFileConfigName }
  | .logLevel => { c with LogLevel := v.GetString logLevelConfigName }
  | .mysqlHost => { c with MysqlHost := v.GetString mysqlHostConfigName }
  | .mysqlUser => { c with MysqlUsername := v.GetString mysqlUserConfigName }
  | .mysqlPassword => { c with MysqlPassword := v.GetString mysqlPasswordConfigName }
  | .mysqlDatabase => { c with MysqlDatabaseName := v.GetString mysqlDatabaseConfigName }
  | .mysqlPort => { c with MysqlPort := v.GetInt mysqlPortConfigName }
  | .httpPort => { c with HTTPPort := v.GetInt httpPortConfigName }
  | .httpSecret => { c with JWTSecret := v.GetString httpSecretConfigName }
  | .openstackAuthURL => { c with OpenstackAuthURL := v.GetString openstackAuthURLConfigName }
  | .openstackPassword => { c with OpenstackPassword := v.GetString openstackPasswordConfigName }
  | .openstackUsername => { c with OpenstackUsername := v.GetString openstackUsernameConfigName }
  | .openstackProject => { c with OpenstackProject := v.GetString openstackProjectConfigName }
  | .openstackDomain => { c with OpenstackDomain := v.GetString openstackDomainConfigName }
  | .consoleDebug => { c with ConsoleDebug := v.GetBool "logging.consoleDebug" }

/-- One step of a validator: the field is read, checked against the zero value
and stored. -/
def check (v : Viper) (f : Field) (c : VisualizationAPIConfig) :
    Option ParseError × VisualizationAPIConfig :=
  if f.resolved v = f.zero then (f.error, c) else (none, f.store v c)

/-- The steps of a list of fields, up to the first error. -/
def checkAll (v : Viper) : List Field → VisualizationAPIConfig →
    Option ParseError × VisualizationAPIConfig
  | [], c => (none, c)
  | f :: fs, c =>
    match check v f c with
    | (some err, c) => (some err, c)
    | (none, c) => checkAll v fs c

/-- The validators in the order of `InitializeConfig`, then console debug. -/
def validate (v : Viper) : Option InitError × VisualizationAPIConfig :=
  match parseLoggingValues v {} with
  | (some err, c) => (some (.parse err), c)
  | (none, c) =>
  match parseMysqlValues v c with
  | (some err, c) => (some (.parse err), c)
  | (none, c) =>
  match parseHTTPEndpointValues v c with
  | (some err, c) => (some (.parse err), c)
  | (none, c) =>
  match parseOpenstackValues v c with
  | (some err, c) => (some (.parse err), c)
  | (none, c) =>
  (none, { c with ConsoleDebug := v.GetBool "logging.consoleDebug" })

/-! ## Removing an entry from a source -/

/-- The world with one environment variable unset. -/
def World.unsetEnv (w : World) (name : String) : World :=
  { w with env := fun n => if n = name then "" else w.env n }

/-- The world with one entry of the configuration file removed. -/
def World.removeFileEntry (w : World) (key : String) : World :=
  { w with file := w.file.map fun config => fun k => if k = key then none else config k }

/-- A value that is not syntactically valid for an integer or a boolean: a
string that `strconv.ParseInt`, or `strconv.ParseBool`, rejects, or a value
that is no scalar. -/
def invalidFor (parseInt : String → Option Int) : FlagType → Value → Bool
  | .int, .str s => (parseInt s).isNone
  | .bool, .str s => (parseBool s).isNone
  | .int, .other => true
  | .bool, .other => true
  | _, _ => false

/-- The config-name constants, in the order of their declaration. -/
def configNames : List String :=
  [ logLevelConfigName, logFileConfigName,
    mysqlPortConfigName, mysqlPasswordConfigName, mysqlHostConfigName, mysqlUserConfigName,
    mysqlDatabaseConfigName,
    httpPortConfigName, httpSecretConfigName,
    openstackAuthURLConfigName, openstackUsernameConfigName, openstackPasswordConfigName,
    openstackProjectConfigName, openstackDomainConfigName ]

end Config

/-! ## The entry point (`pkg/cmd/visualizationapi/main.go`) -/

namespace Main

open Config

/-- An error `main` exits on: the one of `InitializeConfig`, or the one of a
collaborator. -/
inductive MainError where
  | config (err : InitError)
  | collaborator (msg : String)
  deriving DecidableEq, Repr

/-- What `main` does to the outside, in order. -/
inductive Event where
  | print (s : String)
  | printError (optional : List String) (err : MainError)
  | initializeConfig
  | newRotateWriter (path : String)
  | initializeLogger (consoleDebug : Bool) (logLevel : String)
  | initializeEngine (username password host database : String) (port : Int)
  | newOpenstackClient (authURL username password project domain : String)
  | cleanupOnExit
  | serve (secret : String) (port : Int)
  | nilDereference
  | exit (code : Nat)
  deriving DecidableEq, Repr

/-- The collaborators of `main`, each by the error it returns (nil is `none`). -/
structure Collaborators where
  NewRotateWriter : String → Option String
  InitializeEngine : String → String → String → String → Int → Option String
  NewOpenstackClient : String → String → String → String → String → Option String
  Serve : String → Int → Option String

/-- The function `exitWithError`: the error is printed, the process exits
with status 1. -/
def exitWithError (err : MainError) (optional : List String) : List Event :=
  [.printError optional err, .exit 1]

/-- The function `main`, once `flag.Parse` has returned: `versionParam` is the
value of the flag `--version`, `version` and `gitVersion` are the two
variables of that name. It returns what it did and the content of the
module-level pointer of package config. -/
def main (versionParam : Bool) (version gitVersion : String) (w : World)
    (singleToneConfig : Option VisualizationAPIConfig) (co : Collaborators) :
    List Event × Option VisualizationAPIConfig :=
  if versionParam then
    ([.print ("visualization-api version " ++ version ++ " " ++ gitVersion ++ " \n"), .exit 0],
      singleToneConfig)
  else
  match InitializeConfig w singleToneConfig with
  | (some errorParsingConfig, singleToneConfig) =>
    (.initializeConfig :: exitWithError (.config errorParsingConfig) [], singleToneConfig)
  | (none, singleToneConfig) =>
  match GetConfig singleToneConfig with
  | none => ([.initializeConfig, .nilDereference], singleToneConfig)
  | some CONF =>
  let done : List Event := [.initializeConfig, .newRotateWriter CONF.LogFilePath]
  match co.NewRotateWriter CONF.LogFilePath with
  | some rotateInitError =>
    (done ++ exitWithError (.collaborator rotateInitError) [], singleToneConfig)
  | none =>
  let done := done ++ [.initializeLogger CONF.ConsoleDebug CONF.LogLevel,
    .initializeEngine CONF.MysqlUsername CONF.MysqlPassword CONF.MysqlHost
      CONF.MysqlDatabaseName CONF.MysqlPort]
  match co.InitializeEngine CONF.MysqlUsername CONF.MysqlPassword CONF.MysqlHost
      CONF.MysqlDatabaseName CONF.MysqlPort with
  | some databaseInitializationError =>
    (done ++ exitWithError (.collaborator databaseInitializationError) [], singleToneConfig)
  | none =>
  let done := done ++ [.newOpenstackClient CONF.OpenstackAuthURL CONF.OpenstackUsername
    CONF.OpenstackPassword CONF.OpenstackProject CONF.OpenstackDomain]
  match co.NewOpenstackClient CONF.OpenstackAuthURL CONF.OpenstackUsername
      CONF.OpenstackPassword CONF.OpenstackProject CONF.OpenstackDomain with
  | some errorInitializingOpenstackCli =>
    (done ++ exitWithError (.collaborator errorInitializingOpenstackCli)
      ["openstack initialization"], singleToneConfig)
  | none =>
  let done := done ++ [.cleanupOnExit, .serve CONF.JWTSecret CONF.HTTPPort]
  match co.Serve CONF.JWTSecret CONF.HTTPPort with
  | some errorInitializingAPI =>
    (done ++ exitWithError (.collaborator errorInitializingAPI) [], singleToneConfig)
  | none => (done, singleToneConfig)

/-! ## The signal handler (`cleanupOnExit`) -/

/-- The signals `cleanupOnExit` asks to be notified of. -/
inductive Signal where
  | SIGINT
  | SIGTERM
  deriving DecidableEq, Repr

/-- What the goroutine started by `cleanupOnExit` does to the outside: the
message logged, the lock of the log writer taken and released, the file of the
log writer closed, a line printed, the process ended. -/
inductive Effect where
  | logInfo (s : Signal)
  | lock
  | unlock
  | close
  | println (err : String)
  | exit (code : Nat)
  deriving DecidableEq, Repr

/-- A statement of the body of the goroutine: a call, a deferred call, or a
call of `os.Exit`. -/
inductive Stmt where
  | call (e : Effect)
  | deferCall (e : Effect)
  | osExit (code : Nat)
  deriving DecidableEq, Repr

/-- Go's execution of a function body: a deferred call is kept aside and run
when the function returns, the last deferred first; `os.Exit` ends the process
at once, and the deferred calls are not run. -/
def run : List Stmt → List Effect → List Effect
  | [], deferred => deferred
  | .call e :: rest, deferred => e :: run rest deferred
  | .deferCall e :: rest, deferred => run rest (e :: deferred)
  | .osExit code :: _, _ => [.exit code]

/-- The body of the goroutine of `cleanupOnExit` once the signal `s` has come
out of the channel; `closeError` is what `logRotate.Fp.Close()` returns (nil is
`none`). -/
def signalHandler (s : Signal) (closeError : Option String) : List Stmt :=
  [ .call (.logInfo s),
    .call .lock,
    .deferCall .unlock,
    .call .close ] ++
  (match closeError with
    | some err => [.call (.println err)]
    | none => []) ++
  [ .osExit 0 ]

/-- What the goroutine of `cleanupOnExit` does, in order, on the signal `s`. -/
def cleanupOnExit (s : Signal) (closeError : Option String) : List Effect :=
  run (signalHandler s closeError) []

/-- The order of the Shutdown Guard as the spec words it: the lock taken, the
file closed, the lock released, the process ended with status 0. -/
def shutdownOrderOfSpec : List Effect := [.lock, .close, .unlock, .exit 0]

end Main

/-! ## Lemmas -/

namespace Config

theorem initializeCommandLineFlags_ok (cli : String → Option Value) :
    initializeCommandLineFlags cli [] = .ok (boundFlags cli) := rfl

theorem boundFlags_lookup (cli : String → Option Value) (f : Field) :
    (boundFlags cli).lookup (toLower f.key) = f.flagName.bind (Lookup cli) := by
  cases f <;> rfl

theorem Lookup_flagName (cli : String → Option Value) (f : Field) (n : String)
    (h : f.flagName = some n) :
    Lookup cli n =
      some ⟨n, f.typ, (cli n).isSome, (cli n).getD f.zero⟩ := by
  cases f <;> cases h <;> rfl

theorem isPathShadowedInAutoEnv_eq (w : World) (config : String → Option Value) (f : Field) :
    (w.viper config).isPathShadowedInAutoEnv (toLower f.key) =
      decide (w.env f.groupEnvName ≠ "") := by
  have h : ∀ f : Field, parentKeys (toLower f.key).data [] =
      [String.mk ((toLower f.key).data.takeWhile fun c => c ≠ '.')] := by
    intro f
    cases f <;> decide
  unfold Viper.isPathShadowedInAutoEnv
  rw [h f]
  simp only [List.any_cons, List.any_nil, Bool.or_false]
  rfl

theorem find_eq (w : World) (config : String → Option Value) (f : Field) :
    (w.viper config).find (toLower f.key) =
      match f.flagName.bind w.cli with
      | some x => some (f.coerce w.parseInt (some x))
      | none =>
        if w.env f.envName ≠ "" then some (.str (w.env f.envName))
        else if w.env f.groupEnvName ≠ "" then none
        else
          match config (toLower f.key) with
          | some val => some val
          | none => f.flagName.map fun _ => f.zero := by
  have hl : (w.viper config).pflags.lookup (toLower f.key) = f.flagName.bind (Lookup w.cli) :=
    boundFlags_lookup w.cli f
  have he : (w.viper config).getEnv (toUpper (toLower f.key)) = w.env f.envName := rfl
  have hc : (w.viper config).config = config := rfl
  have hs : (w.viper config).isPathShadowedInAutoEnv (toLower f.key) =
      decide (w.env f.groupEnvName ≠ "") :=
    isPathShadowedInAutoEnv_eq w config f
  unfold Viper.find
  rw [hl, he, hc, hs]
  cases hn : f.flagName with
  | none => simp [Option.filter]
  | some n =>
    simp only [Option.bind, Option.map, Lookup_flagName w.cli f n hn]
    cases hx : w.cli n with
    | some x =>
      simp only [Option.filter, Option.isSome, Option.getD, Viper.flagValue, Field.coerce]
      cases f.typ <;> rfl
    | none =>
      have hz : (w.viper config).flagValue ⟨n, f.typ, false, f.zero⟩ = f.zero := by
        unfold Viper.flagValue Field.zero
        cases f.typ <;> rfl
      simp [Option.filter, hz]

theorem resolved_eq (w : World) (config : String → Option Value) (f : Field) :
    f.resolved (w.viper config) = f.coerce w.parseInt (precedence w config f) := by
  have hp : (w.viper config).parseInt = w.parseInt := rfl
  unfold Field.resolved Viper.GetString Viper.GetInt Viper.GetBool Viper.Get
  rw [find_eq, hp]
  unfold precedence Field.coerce
  cases hx : f.flagName.bind w.cli with
  | some x => cases f.typ <;> rfl
  | none =>
    by_cases he : w.env f.envName = ""
    · by_cases hg : w.env f.groupEnvName = ""
      · cases hcfg : config (toLower f.key) with
        | some val => simp [he, hg]
        | none =>
          cases hn : f.flagName with
          | none => simp [he, hg]
          | some n => simp [he, hg, Field.zero]; cases f.typ <;> rfl
      · simp [he, hg]
    · simp [he]


theorem InitializeConfig_eq (w : World) (old : Option VisualizationAPIConfig)
    (config : String → Option Value) (h : w.file = some config) :
    InitializeConfig w old = ((validate (w.viper config)).1, some (validate (w.viper config)).2) := by
  unfold InitializeConfig validate
  rw [initializeCommandLineFlags_ok]
  have hv : (⟨boundFlags w.cli, w.env, config, w.parseInt⟩ : Viper) = w.viper config := rfl
  simp only [h, hv]
  generalize w.viper config = v
  rcases parseLoggingValues v {} with ⟨_ | e1, c1⟩ <;> dsimp only
  rcases parseMysqlValues v c1 with ⟨_ | e2, c2⟩ <;> dsimp only
  rcases parseHTTPEndpointValues v c2 with ⟨_ | e3, c3⟩ <;> dsimp only
  rcases parseOpenstackValues v c3 with ⟨_ | e4, c4⟩ <;> dsimp only


theorem parseLoggingValues_eq (v : Viper) (c : VisualizationAPIConfig) :
    parseLoggingValues v c = checkAll v [.logPath, .logLevel] c := by
  simp only [parseLoggingValues, checkAll, check, Field.resolved, Field.zero, Field.typ,
    Field.key, Field.error, Field.store, Value.str.injEq, Value.int.injEq]
  split_ifs <;> rfl

theorem parseMysqlValues_eq (v : Viper) (c : VisualizationAPIConfig) :
    parseMysqlValues v c =
      checkAll v [.mysqlHost, .mysqlUser, .mysqlPassword, .mysqlDatabase, .mysqlPort] c := by
  simp only [parseMysqlValues, checkAll, check, Field.resolved, Field.zero, Field.typ,
    Field.key, Field.error, Field.store, Value.str.injEq, Value.int.injEq]
  split_ifs <;> rfl

theorem parseHTTPEndpointValues_eq (v : Viper) (c : VisualizationAPIConfig) :
    parseHTTPEndpointValues v c = checkAll v [.httpPort, .httpSecret] c := by
  simp only [parseHTTPEndpointValues, checkAll, check, Field.resolved, Field.zero, Field.typ,
    Field.key, Field.error, Field.store, Value.str.injEq, Value.int.injEq]
  split_ifs <;> rfl

theorem parseOpenstackValues_eq (v : Viper) (c : VisualizationAPIConfig) :
    parseOpenstackValues v c =
      checkAll v [.openstackAuthURL, .openstackPassword, .openstackUsername,
        .openstackProject, .openstackDomain] c := by
  simp only [parseOpenstackValues, checkAll, check, Field.resolved, Field.zero, Field.typ,
    Field.key, Field.error, Field.store, Value.str.injEq, Value.int.injEq]
  split_ifs <;> rfl


theorem checkAll_append (v : Viper) (l₁ l₂ : List Field) (c : VisualizationAPIConfig) :
    checkAll v (l₁ ++ l₂) c =
      match checkAll v l₁ c with
      | (some err, c) => (some err, c)
      | (none, c) => checkAll v l₂ c := by
  induction l₁ generalizing c with
  | nil => rfl
  | cons f fs ih =>
    simp only [List.cons_append, checkAll]
    rcases check v f c with ⟨_ | e, c'⟩
    · exact ih c'
    · rfl

theorem validate_eq (v : Viper) :
    validate v =
      match checkAll v Field.validationOrder {} with
      | (some err, c) => (some (.parse err), c)
      | (none, c) => (none, Field.consoleDebug.store v c) := by
  have h : Field.validationOrder =
      [.logPath, .logLevel] ++ ([.mysqlHost, .mysqlUser, .mysqlPassword, .mysqlDatabase,
        .mysqlPort] ++ ([.httpPort, .httpSecret] ++ [.openstackAuthURL, .openstackPassword,
        .openstackUsername, .openstackProject, .openstackDomain])) := rfl
  rw [h, checkAll_append]
  unfold validate
  rw [parseLoggingValues_eq]
  rcases checkAll v [.logPath, .logLevel] {} with ⟨_ | e1, c1⟩ <;> dsimp only
  rw [checkAll_append, parseMysqlValues_eq]
  rcases checkAll v [.mysqlHost, .mysqlUser, .mysqlPassword, .mysqlDatabase,
    .mysqlPort] c1 with ⟨_ | e2, c2⟩ <;> dsimp only
  rw [checkAll_append, parseHTTPEndpointValues_eq]
  rcases checkAll v [.httpPort, .httpSecret] c2 with ⟨_ | e3, c3⟩ <;> dsimp only
  rw [parseOpenstackValues_eq]
  rcases checkAll v [.openstackAuthURL, .openstackPassword, .openstackUsername,
    .openstackProject, .openstackDomain] c3 with ⟨_ | e4, c4⟩ <;> rfl

theorem stored_store (v : Viper) (c : VisualizationAPIConfig) (f g : Field) :
    g.stored (f.store v c) = if g = f then g.resolved v else g.stored c := by
  cases f <;> cases g <;> rfl

theorem checkAll_fst (v : Viper) (l : List Field) (c : VisualizationAPIConfig)
    (hl : ∀ f ∈ l, f.error ≠ none) :
    (checkAll v l c).1 = (l.find? fun f => f.resolved v = f.zero).bind Field.error := by
  induction l generalizing c with
  | nil => rfl
  | cons f fs ih =>
    have hf := hl f (List.mem_cons_self f fs)
    have hfs : ∀ g ∈ fs, g.error ≠ none := fun g hg => hl g (List.mem_cons_of_mem f hg)
    by_cases hz : f.resolved v = f.zero
    · cases he : f.error with
      | none => exact absurd he hf
      | some e => simp [checkAll, check, hz, he, List.find?]
    · simp [checkAll, check, hz, List.find?, ih _ hfs]

theorem checkAll_stored (v : Viper) (l : List Field) (c : VisualizationAPIConfig) (g : Field)
    (hl : ∀ f ∈ l, f.error ≠ none) :
    g.stored (checkAll v l c).2 =
      if g ∈ l.takeWhile (fun f => f.resolved v ≠ f.zero) then g.resolved v else g.stored c := by
  induction l generalizing c with
  | nil => rfl
  | cons f fs ih =>
    have hf := hl f (List.mem_cons_self f fs)
    have hfs : ∀ g ∈ fs, g.error ≠ none := fun g hg => hl g (List.mem_cons_of_mem f hg)
    by_cases hz : f.resolved v = f.zero
    · cases he : f.error with
      | none => exact absurd he hf
      | some e => simp [checkAll, check, hz, he, List.takeWhile]
    · simp only [checkAll, check, hz, if_false, ih _ hfs, stored_store, List.takeWhile,
        ne_eq, not_false_eq_true, decide_True, List.mem_cons]
      by_cases hg : g = f
      · simp [hg]
      · simp [hg]

theorem validationOrder_error (f : Field) (h : f ∈ Field.validationOrder) : f.error ≠ none := by
  cases f <;> simp [Field.validationOrder, Field.error] at h ⊢


theorem find?_eq_some_of_first {α : Type} [DecidableEq α] (p : α → Bool)
    (l : List α) (f : α) (hf : f ∈ l) (hp : p f = true)
    (hb : ∀ g ∈ l.takeWhile (fun g => !decide (g = f)), p g = false) :
    l.find? p = some f := by
  induction l with
  | nil => cases hf
  | cons a as ih =>
    by_cases ha : a = f
    · subst ha
      simp [List.find?, hp]
    · have hna : p a = false := hb a (by simp [List.takeWhile, ha])
      have hb2 : ∀ g ∈ as.takeWhile (fun g => !decide (g = f)), p g = false := by
        intro g hg
        exact hb g (by simp [List.takeWhile, ha, hg])
      have hf2 : f ∈ as := by
        rcases List.mem_cons.mp hf with h | h
        · exact absurd h.symm ha
        · exact h
      simp [List.find?, hna, ih hf2 hb2]

theorem first_of_find?_eq_some {α : Type} [DecidableEq α] (p : α → Bool)
    (l : List α) (f : α) (h : l.find? p = some f) :
    f ∈ l ∧ p f = true ∧
      (l.takeWhile fun g => !p g) = l.takeWhile (fun g => !decide (g = f)) := by
  induction l with
  | nil => cases h
  | cons a as ih =>
    by_cases ha : p a = true
    · have hfa : a = f := by simpa [List.find?, ha] using h
      subst hfa
      simp [List.takeWhile, ha]
    · have ha2 : p a = false := by simpa using ha
      have h2 : as.find? p = some f := by simpa [List.find?, ha2] using h
      obtain ⟨h1, h3, h4⟩ := ih h2
      have hne : a ≠ f := fun e => ha (e ▸ h3)
      refine ⟨List.mem_cons_of_mem a h1, h3, ?_⟩
      simp [List.takeWhile, ha2, hne, h4]

theorem takeWhile_of_find?_eq_none {α : Type} (p : α → Bool)
    (l : List α) (h : l.find? p = none) :
    (l.takeWhile fun g => !p g) = l := by
  induction l with
  | nil => rfl
  | cons a as ih =>
    by_cases ha : p a = true
    · simp [List.find?, ha] at h
    · have ha2 : p a = false := by simpa using ha
      have h2 : as.find? p = none := by simpa [List.find?, ha2] using h
      simp [List.takeWhile, ha2, ih h2]

theorem before_eq (f : Field) :
    f.before = Field.validationOrder.takeWhile (fun g => !decide (g = f)) := by
  unfold Field.before
  simp only [ne_eq, decide_not]

theorem takeWhile_valid_eq (v : Viper) (l : List Field) :
    (l.takeWhile fun g => g.resolved v ≠ g.zero) =
      l.takeWhile (fun g => !decide (g.resolved v = g.zero)) := by
  simp only [ne_eq, decide_not]

theorem firstUnresolved_eq_some (v : Viper) (f : Field) (hf : f ∈ Field.validationOrder)
    (hz : f.resolved v = f.zero) (hb : ∀ g ∈ f.before, g.resolved v ≠ g.zero) :
    firstUnresolved v = some f := by
  rw [before_eq] at hb
  exact find?_eq_some_of_first (fun g : Field => decide (g.resolved v = g.zero)) Field.validationOrder f
    hf (by simpa using hz) (fun g hg => by simpa using hb g hg)

theorem firstUnresolved_some (v : Viper) (f : Field) (h : firstUnresolved v = some f) :
    f ∈ Field.validationOrder ∧ f.resolved v = f.zero ∧
      (Field.validationOrder.takeWhile fun g => g.resolved v ≠ g.zero) = f.before := by
  obtain ⟨h1, h2, h3⟩ :=
    first_of_find?_eq_some (fun g : Field => decide (g.resolved v = g.zero)) Field.validationOrder f h
  rw [before_eq, takeWhile_valid_eq]
  exact ⟨h1, by simpa using h2, h3⟩

theorem takeWhile_valid_of_none (v : Viper) (h : firstUnresolved v = none) :
    (Field.validationOrder.takeWhile fun g => g.resolved v ≠ g.zero) = Field.validationOrder := by
  rw [takeWhile_valid_eq]
  exact takeWhile_of_find?_eq_none (fun g : Field => decide (g.resolved v = g.zero)) _ h

theorem firstUnresolved_eq_none (v : Viper) :
    firstUnresolved v = none ↔ ∀ f ∈ Field.validationOrder, f.resolved v ≠ f.zero := by
  simp [firstUnresolved, List.find?_eq_none]

theorem stored_default (g : Field) : g.stored {} = g.zero := by
  cases g <;> rfl

theorem mem_all (g : Field) : g ∈ Field.validationOrder ∨ g = .consoleDebug := by
  cases g <;> simp [Field.validationOrder]

theorem consoleDebug_not_mem : Field.consoleDebug ∉ Field.validationOrder := by
  decide

theorem validate_error (v : Viper) :
    (validate v).1 = (firstUnresolved v).bind fun f => f.error.map InitError.parse := by
  have h1 := checkAll_fst v Field.validationOrder {} validationOrder_error
  rw [validate_eq]
  rcases hc : checkAll v Field.validationOrder {} with ⟨_ | e, c⟩
  · rw [hc] at h1
    dsimp only at h1 ⊢
    cases hfu : firstUnresolved v with
    | none => rfl
    | some f =>
      have hm := (firstUnresolved_some v f hfu).1
      have hne := validationOrder_error f hm
      unfold firstUnresolved at hfu
      rw [hfu] at h1
      simp only [Option.bind] at h1
      exact absurd h1.symm hne
  · rw [hc] at h1
    dsimp only at h1 ⊢
    cases hfu : firstUnresolved v with
    | none =>
      unfold firstUnresolved at hfu
      rw [hfu] at h1
      cases h1
    | some f =>
      unfold firstUnresolved at hfu
      rw [hfu] at h1
      simp only [Option.bind] at h1 ⊢
      rw [← h1]
      rfl

theorem validate_stored_of_none (v : Viper) (h : firstUnresolved v = none) (g : Field) :
    g.stored (validate v).2 = g.resolved v := by
  have he := validate_error v
  have hs := checkAll_stored v Field.validationOrder {} g validationOrder_error
  rw [takeWhile_valid_of_none v h] at hs
  rw [validate_eq] at he ⊢
  rcases hc : checkAll v Field.validationOrder {} with ⟨_ | e, c⟩
  · rw [hc] at hs
    dsimp only at hs ⊢
    rw [stored_store]
    rcases mem_all g with hg | hg
    · have hne : g ≠ .consoleDebug := fun e => consoleDebug_not_mem (e ▸ hg)
      simp [hne, hs, hg]
    · simp [hg]
  · rw [hc, h] at he
    cases he

theorem validate_stored_of_some (v : Viper) (f : Field) (h : firstUnresolved v = some f)
    (g : Field) :
    g.stored (validate v).2 = if g ∈ f.before then g.resolved v else g.zero := by
  have he := validate_error v
  have hs := checkAll_stored v Field.validationOrder {} g validationOrder_error
  rw [(firstUnresolved_some v f h).2.2, stored_default] at hs
  rw [validate_eq] at he ⊢
  rcases hc : checkAll v Field.validationOrder {} with ⟨_ | e, c⟩
  · rw [hc, h] at he
    have hne := validationOrder_error f (firstUnresolved_some v f h).1
    cases hfe : f.error with
    | none => exact absurd hfe hne
    | some e => simp [hfe] at he
  · rw [hc] at hs
    exact hs

theorem coerce_none (parseInt : String → Option Int) (f : Field) :
    f.coerce parseInt none = f.zero := by
  cases f <;> rfl

theorem resolved_of_absent (w : World) (config : String → Option Value) (f : Field)
    (h : absent w config f) : f.resolved (w.viper config) = f.zero := by
  obtain ⟨h1, h2, h3⟩ := h
  rw [resolved_eq]
  unfold precedence
  simp [h1, h2, h3, coerce_none]

theorem store_congr (v v' : Viper) (f : Field) (c : VisualizationAPIConfig)
    (h : f.resolved v = f.resolved v') : f.store v c = f.store v' c := by
  cases f <;>
    simp only [Field.resolved, Field.typ, Field.key, Value.str.injEq, Value.int.injEq,
      Value.bool.injEq] at h <;>
    simp only [Field.store, consoleDebugConfigName] at h ⊢ <;> rw [h]

theorem checkAll_congr (v v' : Viper) (l : List Field) (c : VisualizationAPIConfig)
    (h : ∀ g : Field, g.resolved v = g.resolved v') : checkAll v l c = checkAll v' l c := by
  induction l generalizing c with
  | nil => rfl
  | cons f fs ih =>
    simp only [checkAll, check, h f, store_congr v v' f c (h f)]
    split_ifs
    · rcases f.error with _ | e
      · exact ih _
      · rfl
    · exact ih _

theorem validate_congr (v v' : Viper) (h : ∀ g : Field, g.resolved v = g.resolved v') :
    validate v = validate v' := by
  rw [validate_eq, validate_eq, checkAll_congr v v' _ _ h]
  rcases checkAll v' Field.validationOrder {} with ⟨_ | e, c⟩
  · dsimp only
    rw [store_congr v v' _ _ (h _)]
  · rfl

theorem envName_injective (f g : Field) (h : f.envName = g.envName) : f = g := by
  revert h
  cases f <;> cases g <;> decide

theorem key_injective (f g : Field) (h : toLower f.key = toLower g.key) : f = g := by
  revert h
  cases f <;> cases g <;> decide



/-! ## The claims -/

/-- The outcome of `InitializeConfig` once the file is read: the error and the
configuration computed by the validators. -/
theorem InitializeConfig_fst (w : World) (old : Option VisualizationAPIConfig)
    (config : String → Option Value) (h : w.file = some config) :
    (InitializeConfig w old).1 =
      (firstUnresolved (w.viper config)).bind fun f => f.error.map InitError.parse := by
  rw [InitializeConfig_eq w old config h]
  exact validate_error _

theorem InitializeConfig_snd (w : World) (old : Option VisualizationAPIConfig)
    (config : String → Option Value) (h : w.file = some config) :
    (InitializeConfig w old).2 = some (validate (w.viper config)).2 := by
  rw [InitializeConfig_eq w old config h]

theorem coerce_of_type (parseInt : String → Option Int) (f : Field) (x : Value)
    (h : x.ofType f.typ = true) : f.coerce parseInt (some x) = x := by
  unfold Field.coerce
  cases hf : f.typ <;> rw [hf] at h <;> cases x <;>
    simp_all [Value.ofType, castToString, castToInt, castToBool]

/-- C1, as the code has it. Precedence law: for every field of the catalog and
every content of the three sources in which all the other required fields
resolve, the value `InitializeConfig` leaves in the field's member of the
stored configuration is, converted to the type of the field (a value of that
type is kept as it is), the value of the flag bound to the field when that flag
was given; otherwise the value of the field's environment variable when it is
set (non-empty, as `os.Getenv` tells); otherwise the entry of the configuration
file, as long as the environment variable named after the group of the field
(`LOG`, `MYSQL`, `HTTP_ENDPOINT`, `OPENSTACK`, `LOGGING`) is empty. When that
variable is not empty the file is not read for the field, which gets the zero
value. -/
theorem precedence_law (w : World) (old : Option VisualizationAPIConfig)
    (config : String → Option Value) (f : Field) (hfile : w.file = some config)
    (hothers : ∀ g ∈ Field.validationOrder, g ≠ f → g.resolved (w.viper config) ≠ g.zero) :
    ∃ c, (InitializeConfig w old).2 = some c ∧
      (∀ x, f.flagName.bind w.cli = some x → f.stored c = f.coerce w.parseInt (some x)) ∧
      (f.flagName.bind w.cli = none → w.env f.envName ≠ "" →
        f.stored c = f.coerce w.parseInt (some (.str (w.env f.envName)))) ∧
      (f.flagName.bind w.cli = none → w.env f.envName = "" → w.env f.groupEnvName = "" →
        f.stored c = f.coerce w.parseInt (config (toLower f.key))) ∧
      (f.flagName.bind w.cli = none → w.env f.envName = "" → w.env f.groupEnvName ≠ "" →
        f.stored c = f.zero) ∧
      (∀ x : Value, x.ofType f.typ = true → f.coerce w.parseInt (some x) = x) ∧
      ((Field.validationOrder ++ [Field.consoleDebug]).map fun g => g.groupEnvName) =
        ["LOG", "LOG", "MYSQL", "MYSQL", "MYSQL", "MYSQL", "MYSQL",
          "HTTP_ENDPOINT", "HTTP_ENDPOINT",
          "OPENSTACK", "OPENSTACK", "OPENSTACK", "OPENSTACK", "OPENSTACK", "LOGGING"] := by
  have hst : f.stored (validate (w.viper config)).2 = f.resolved (w.viper config) := by
    cases hfu : firstUnresolved (w.viper config) with
    | none => exact validate_stored_of_none _ hfu f
    | some f' =>
      obtain ⟨hm, hz, ht⟩ := firstUnresolved_some _ f' hfu
      have hff : f' = f := by
        by_contra hne
        exact hothers f' hm hne hz
      subst hff
      rw [validate_stored_of_some _ f' hfu f', hz]
      have hnb : f' ∉ f'.before := by
        intro hmem
        rw [← ht] at hmem
        have := List.mem_takeWhile_imp hmem
        simp [hz] at this
      simp [hnb]
  refine ⟨_, InitializeConfig_snd w old config hfile, ?_, ?_, ?_, ?_,
    fun x hx => coerce_of_type _ f x hx, by decide⟩
  · intro x hx
    rw [hst, resolved_eq]
    simp [precedence, hx]
  · intro hx he
    rw [hst, resolved_eq]
    simp [precedence, hx, he]
  · intro hx he hg
    rw [hst, resolved_eq]
    simp [precedence, hx, he, hg]
  · intro hx he hg
    rw [hst, resolved_eq]
    simp [precedence, hx, he, hg]
    exact coerce_none _ _

/-- C1, at the scenario of the full override: file 3306, environment 3307, flag
3308 give `MysqlPort = 3308`. -/
theorem precedence_law_witness :
    ∃ c, (InitializeConfig overrideWorld none).2 = some c ∧ c.MysqlPort = 3308 := by
  obtain ⟨c, hc, h1, _, _⟩ :=
    precedence_law overrideWorld none (fun k => fullFile.lookup k) .mysqlPort rfl (by decide)
  refine ⟨c, hc, ?_⟩
  have h := h1 (.int 3308) (by decide)
  simpa [Field.stored, Field.coerce, Field.typ, castToInt] using h

/-- C1, as the claim states it, fails: with `MYSQL=x` in the environment, the
other four fields of the database given by their own variables, no flag and no
variable for `mysql.port`, and `mysql.port = 3306` in the file, every other
required field resolves, yet `InitializeConfig` returns the ParseError of
`mysql.port` and stores 0, not the 3306 of the file. -/
theorem precedence_law_counterexample :
    (∀ g ∈ Field.validationOrder, g ≠ Field.mysqlPort →
        g.resolved (shadowedPortWorld.viper fun k => fullFile.lookup k) ≠ g.zero) ∧
      Field.mysqlPort.flagName.bind shadowedPortWorld.cli = none ∧
      shadowedPortWorld.env Field.mysqlPort.envName = "" ∧
      shadowedPortWorld.env "MYSQL" = "x" ∧
      fullFile.lookup (toLower Field.mysqlPort.key) = some (.int 3306) ∧
      Field.mysqlPort.coerce shadowedPortWorld.parseInt
        (fullFile.lookup (toLower Field.mysqlPort.key)) = .int 3306 ∧
      (InitializeConfig shadowedPortWorld none).1 =
        some (.parse (NewParseError "MysqlPort" "port" "mysql" "MYSQL_PORT" "--mysql-port")) ∧
      ((InitializeConfig shadowedPortWorld none).2.map fun c => Field.mysqlPort.stored c) =
        some (.int 0) := by
  decide


/-- The error of the earliest unresolved field is the one `InitializeConfig`
returns. -/
theorem InitializeConfig_error_of_first (w : World) (old : Option VisualizationAPIConfig)
    (config : String → Option Value) (f : Field) (hfile : w.file = some config)
    (hf : f ∈ Field.validationOrder)
    (hbefore : ∀ g ∈ f.before, g.resolved (w.viper config) ≠ g.zero)
    (hz : f.resolved (w.viper config) = f.zero) :
    (InitializeConfig w old).1 = f.error.map InitError.parse := by
  rw [InitializeConfig_fst w old config hfile, firstUnresolved_eq_some _ f hf hz hbefore]
  rfl

/-- What the ParseError of each required field carries. -/
theorem error_attributes (f : Field) (hf : f ∈ Field.validationOrder) :
    ∃ e, f.error = some e ∧
      e.envName = envReplacer (toUpper f.key) ∧
      (f ≠ .httpSecret → f ≠ .openstackProject → e.group ++ "." ++ e.fileKey = f.key) ∧
      (f ≠ .logLevel → e.flagName = "--" ++ flagReplacer f.key) ∧
      (f = .logLevel → e.flagName = "") := by
  cases f <;>
    first
    | exact absurd hf (by decide)
    | exact ⟨_, rfl, by decide, by decide, by decide, by decide⟩

/-- C2, as the code has it. Fail-fast attribution: for every required field, when
the field is absent from the three sources while every field validated before
it resolves, `InitializeConfig` returns a ParseError whose environment name is
the key of the field in upper case with dots replaced by underscores; whose
group and file key, joined by a dot, give the key of the field (nothing is said
here of the file key of `http_endpoint.jwt_secret` and of
`openstack.project_name`); and whose flag name is `--` followed by the key with
dots and underscores replaced by hyphens, except for `log.level`, which has no
flag and whose flag name is empty. -/
theorem fail_fast_attribution (w : World) (old : Option VisualizationAPIConfig)
    (config : String → Option Value) (f : Field) (hfile : w.file = some config)
    (hf : f ∈ Field.validationOrder)
    (hbefore : ∀ g ∈ f.before, g.resolved (w.viper config) ≠ g.zero)
    (habsent : absent w config f) :
    ∃ e, (InitializeConfig w old).1 = some (.parse e) ∧
      e.envName = envReplacer (toUpper f.key) ∧
      (f ≠ .httpSecret → f ≠ .openstackProject → e.group ++ "." ++ e.fileKey = f.key) ∧
      (f ≠ .logLevel → e.flagName = "--" ++ flagReplacer f.key) ∧
      (f = .logLevel → e.flagName = "") := by
  obtain ⟨e, he, hattr⟩ := error_attributes f hf
  refine ⟨e, ?_, hattr⟩
  rw [InitializeConfig_error_of_first w old config f hfile hf hbefore
    (resolved_of_absent w config f habsent), he]
  rfl

/-- C2, at a world where only `mysql.port` is missing: the ParseError names
`MYSQL_PORT`, `mysql` and `port`, and `--mysql-port`. -/
theorem fail_fast_attribution_witness :
    ∃ e, (InitializeConfig (worldOf [] [] (fileWithout ["mysql.port"])) none).1 =
        some (.parse e) ∧
      e.envName = "MYSQL_PORT" ∧ e.group ++ "." ++ e.fileKey = "mysql.port" ∧
      e.flagName = "--mysql-port" := by
  obtain ⟨e, he, h1, h2, h3, _⟩ :=
    fail_fast_attribution (worldOf [] [] (fileWithout ["mysql.port"])) none
      (fun k => (fileWithout ["mysql.port"]).lookup k) .mysqlPort rfl (by decide) (by decide)
      (by decide)
  exact ⟨e, he, h1, h2 (by decide) (by decide), h3 (by decide)⟩

/-- C2, as the claim states it, fails: with `log.level` absent from the three
sources and `log.path` resolved, the ParseError returned has the file key
`level`, not the constant `log.level`, and an empty flag name, not
`--log-level`. -/
theorem fail_fast_attribution_counterexample :
    absent noLogLevelWorld (fun k => (fileWithout ["log.level"]).lookup k) .logLevel ∧
      (∀ g ∈ Field.logLevel.before,
        g.resolved (noLogLevelWorld.viper fun k => (fileWithout ["log.level"]).lookup k) ≠
          g.zero) ∧
      (InitializeConfig noLogLevelWorld none).1 =
        some (.parse (NewParseError "logLevel" "level" "log" "LOG_LEVEL" "")) ∧
      (NewParseError "logLevel" "level" "log" "LOG_LEVEL" "").fileKey ≠ logLevelConfigName ∧
      (NewParseError "logLevel" "level" "log" "LOG_LEVEL" "").flagName ≠
        "--" ++ flagReplacer logLevelConfigName := by
  decide

/-- C3. Missing-required scenario: when the logging and the database groups
resolve fully and no source supplies `http_endpoint.port`, `InitializeConfig`
fails with a ParseError whose group is `http_endpoint` and which names the file
key `http_endpoint.port`: the option `port` of that group. -/
theorem missing_http_port (w : World) (old : Option VisualizationAPIConfig)
    (config : String → Option Value) (hfile : w.file = some config)
    (hlogging : ∀ g ∈ [Field.logPath, Field.logLevel], g.resolved (w.viper config) ≠ g.zero)
    (hdatabase : ∀ g ∈ [Field.mysqlHost, Field.mysqlUser, Field.mysqlPassword,
      Field.mysqlDatabase, Field.mysqlPort], g.resolved (w.viper config) ≠ g.zero)
    (habsent : absent w config .httpPort) :
    ∃ e, (InitializeConfig w old).1 = some (.parse e) ∧
      e.group = "http_endpoint" ∧ e.configKey = "http_endpoint.port" ∧
      e.fileKey = "port" ∧ e.group ++ "." ++ e.fileKey = httpPortConfigName := by
  have hbefore : ∀ g ∈ Field.httpPort.before, g.resolved (w.viper config) ≠ g.zero := by
    intro g hg
    have hg2 : g ∈ [Field.logPath, Field.logLevel] ++ [Field.mysqlHost, Field.mysqlUser,
        Field.mysqlPassword, Field.mysqlDatabase, Field.mysqlPort] := hg
    rcases List.mem_append.mp hg2 with h | h
    · exact hlogging g h
    · exact hdatabase g h
  refine ⟨_, InitializeConfig_error_of_first w old config .httpPort hfile (by decide) hbefore
    (resolved_of_absent w config _ habsent), rfl, by decide, rfl, by decide⟩

/-- C3, at the world whose file lacks `http_endpoint.port`. -/
theorem missing_http_port_witness :
    ∃ e, (InitializeConfig noHTTPPortWorld none).1 = some (.parse e) ∧
      e.group = "http_endpoint" ∧ e.configKey = "http_endpoint.port" ∧
      e.fileKey = "port" ∧ e.group ++ "." ++ e.fileKey = httpPortConfigName :=
  missing_http_port noHTTPPortWorld none (fun k => (fileWithout ["http_endpoint.port"]).lookup k)
    rfl (by decide) (by decide) (by decide)


/-- C4. Given that the flags are bound and the configuration file is read,
`InitializeConfig` returns nil if and only if every one of the fourteen
required fields resolves to a non-empty string or a non-zero integer; after a
successful run every required member of the stored configuration is non-empty
or non-zero; and a required field that resolves to `0` or `""` is rejected
with the ParseError returned when the field is absent from every source. -/
theorem success_iff_all_resolved (w : World) (old : Option VisualizationAPIConfig)
    (config : String → Option Value) (hfile : w.file = some config) :
    (∃ pflags, initializeCommandLineFlags w.cli [] = .ok pflags) ∧
    ((InitializeConfig w old).1 = none ↔
      ∀ f ∈ Field.validationOrder, f.resolved (w.viper config) ≠ f.zero) ∧
    ((InitializeConfig w old).1 = none →
      ∃ c, (InitializeConfig w old).2 = some c ∧
        ∀ f ∈ Field.validationOrder, f.stored c ≠ f.zero) ∧
    (∀ f ∈ Field.validationOrder,
      (∀ g ∈ f.before, g.resolved (w.viper config) ≠ g.zero) →
      f.resolved (w.viper config) = f.zero →
      ∃ e, (InitializeConfig w old).1 = some (.parse e) ∧
        ∀ (w' : World) (old' : Option VisualizationAPIConfig) (config' : String → Option Value),
          w'.file = some config' →
          (∀ g ∈ f.before, g.resolved (w'.viper config') ≠ g.zero) →
          absent w' config' f →
          (InitializeConfig w' old').1 = some (.parse e)) := by
  have hiff : (InitializeConfig w old).1 = none ↔
      ∀ f ∈ Field.validationOrder, f.resolved (w.viper config) ≠ f.zero := by
    rw [InitializeConfig_fst w old config hfile, ← firstUnresolved_eq_none]
    cases hfu : firstUnresolved (w.viper config) with
    | none => simp
    | some f =>
      have hne := validationOrder_error f (firstUnresolved_some _ f hfu).1
      cases he : f.error with
      | none => exact absurd he hne
      | some e => simp [he]
  refine ⟨⟨_, initializeCommandLineFlags_ok w.cli⟩, hiff, ?_, ?_⟩
  · intro hnone
    have hall := hiff.mp hnone
    have hfu := (firstUnresolved_eq_none _).mpr hall
    refine ⟨_, InitializeConfig_snd w old config hfile, ?_⟩
    intro f hf
    rw [validate_stored_of_none _ hfu f]
    exact hall f hf
  · intro f hf hbefore hz
    have hne := validationOrder_error f hf
    cases he : f.error with
    | none => exact absurd he hne
    | some e =>
      refine ⟨e, ?_, ?_⟩
      · rw [InitializeConfig_error_of_first w old config f hfile hf hbefore hz, he]
        rfl
      · intro w' old' config' hfile' hbefore' habsent'
        rw [InitializeConfig_error_of_first w' old' config' f hfile' hf hbefore'
          (resolved_of_absent w' config' f habsent'), he]
        rfl

/-- C4, at a file that sets `mysql.port = 0`: the run is rejected with the
ParseError of a file without `mysql.port`. -/
theorem success_iff_all_resolved_witness :
    (InitializeConfig zeroPortWorld none).1 ≠ none ∧
      (InitializeConfig zeroPortWorld none).1 =
        (InitializeConfig (worldOf [] [] (fileWithout ["mysql.port"])) none).1 := by
  obtain ⟨_, _, _, h⟩ := success_iff_all_resolved zeroPortWorld none
    (fun k => (("mysql.port", Value.int 0) :: fileWithout ["mysql.port"]).lookup k) rfl
  obtain ⟨e, he, hsame⟩ := h .mysqlPort (by decide) (by decide) (by decide)
  have h2 := hsame (worldOf [] [] (fileWithout ["mysql.port"])) none
    (fun k => (fileWithout ["mysql.port"]).lookup k) rfl (by decide) (by decide)
  exact ⟨by rw [he]; simp, by rw [he, h2]⟩

/-- The ParseError of a required field is the error of no other required field. -/
theorem error_injective (f g : Field) (hf : f ∈ Field.validationOrder) (h : f.error = g.error) :
    f = g := by
  revert hf h
  cases f <;> cases g <;> decide

/-- C5. Validation order and short-circuit: the groups are validated in the
order logging, database, HTTP endpoint, cloud identity, the fields of a group in
the order of its statements (`Field.validationOrder`). Whatever the set of
unresolved required fields, for its earliest member in that order
`InitializeConfig` returns the ParseError of that field, which is the error of
no other field; the fields before it hold their resolved values and no field
from it on is stored. -/
theorem validation_order_short_circuit (w : World) (old : Option VisualizationAPIConfig)
    (config : String → Option Value) (f : Field) (hfile : w.file = some config)
    (hf : f ∈ Field.validationOrder)
    (hz : f.resolved (w.viper config) = f.zero)
    (hbefore : ∀ g ∈ f.before, g.resolved (w.viper config) ≠ g.zero) :
    (Field.validationOrder.map fun g => g.error.map fun e => e.group) =
        [some "log", some "log",
          some "mysql", some "mysql", some "mysql", some "mysql", some "mysql",
          some "http_endpoint", some "http_endpoint",
          some "openstack", some "openstack", some "openstack", some "openstack",
          some "openstack"] ∧
    ∃ e c, f.error = some e ∧ InitializeConfig w old = (some (.parse e), some c) ∧
      (∀ g, g.error = some e → g = f) ∧
      (∀ g ∈ f.before, g.stored c = g.resolved (w.viper config)) ∧
      (∀ g, g ∉ f.before → g.stored c = g.zero) := by
  have hne := validationOrder_error f hf
  have hfu := firstUnresolved_eq_some _ f hf hz hbefore
  refine ⟨rfl, ?_⟩
  cases he : f.error with
  | none => exact absurd he hne
  | some e =>
    refine ⟨e, (validate (w.viper config)).2, rfl, ?_, ?_, ?_, ?_⟩
    · have h1 := InitializeConfig_error_of_first w old config f hfile hf hbefore hz
      have h2 := InitializeConfig_snd w old config hfile
      rw [he] at h1
      exact Prod.ext h1 h2
    · intro g hg
      exact (error_injective f g hf (he.trans hg.symm)).symm
    · intro g hg
      rw [validate_stored_of_some _ f hfu g]
      simp [hg]
    · intro g hg
      rw [validate_stored_of_some _ f hfu g]
      simp [hg]

/-- C5, with both `log.path` and `mysql.host` missing: the error names
`log.path` and nothing is stored. -/
theorem validation_order_short_circuit_witness :
    ∃ e c, InitializeConfig noLogPathNoMysqlHostWorld none = (some (.parse e), some c) ∧
      e.name = "logPath" ∧ e.envName = "LOG_PATH" ∧ c = {} := by
  obtain ⟨_, e, c, he, hrun, _, _, hzero⟩ :=
    validation_order_short_circuit noLogPathNoMysqlHostWorld none
      (fun k => (fileWithout ["log.path", "mysql.host"]).lookup k) .logPath rfl
      (by decide) (by decide) (by decide)
  have hrun2 : InitializeConfig noLogPathNoMysqlHostWorld none =
      (some (.parse (NewParseError "logPath" "path" "log" "LOG_PATH" "--log-path")), some {}) := by
    decide
  rw [hrun2] at hrun
  cases hrun
  exact ⟨_, _, hrun2, rfl, rfl, rfl⟩

/-- C6. Name derivation is injective over the catalog: the config-name
constants (and the key of console debug) are pairwise distinct, so are the
environment names derived from them (upper case, dots to underscores), so are
the flag names derived from them with `flagReplacer`, and so are the names of
the flags the package defines. -/
theorem name_derivation_injective :
    (consoleDebugConfigName :: configNames).Nodup ∧
      ((consoleDebugConfigName :: configNames).map fun k => envReplacer (toUpper k)).Nodup ∧
      ((consoleDebugConfigName :: configNames).map flagReplacer).Nodup ∧
      (flagDefinitions.map fun d => d.Name).Nodup := by
  decide


/-- C7, as the code has it. Source Registrar: every field of the catalog other
than `log.level` is defined as a command-line flag, under the flag name derived
from its key with `flagReplacer` (console debug: under `debug`), and that flag
is bound to the key of the field, so that a value given for the flag is the
value the field resolves to. No flag is defined for `log.level` and none is
bound to its key. -/
theorem registrar_completeness (f : Field) :
    (f ≠ .logLevel →
      ∃ n, f.flagName = some n ∧
        (f ≠ .consoleDebug → n = flagReplacer f.key) ∧
        (f = .consoleDebug → n = "debug") ∧
        n ∈ flagDefinitions.map (fun d => d.Name) ∧
        (∀ cli : String → Option Value, ∃ flag, Lookup cli n = some flag ∧
          initializeCommandLineFlags cli [] = .ok (boundFlags cli) ∧
          (boundFlags cli).lookup (toLower f.key) = some flag) ∧
        (∀ (w : World) (config : String → Option Value) (x : Value), w.cli n = some x →
          f.resolved (w.viper config) = f.coerce w.parseInt (some x))) ∧
    (f = .logLevel →
      flagReplacer f.key ∉ flagDefinitions.map (fun d => d.Name) ∧
      ∀ cli : String → Option Value, (boundFlags cli).lookup (toLower f.key) = none) := by
  constructor
  · intro hf
    cases hn : f.flagName with
    | none => cases f <;> first | exact absurd rfl hf | cases hn
    | some n =>
      refine ⟨n, rfl, ?_, ?_, ?_, ?_, ?_⟩
      · intro hd
        cases f <;> first | exact absurd rfl hf | exact absurd rfl hd | (cases hn; rfl)
      · intro hd
        subst hd
        cases hn
        rfl
      · cases f <;> first | exact absurd rfl hf | (cases hn; decide)
      · intro cli
        refine ⟨_, Lookup_flagName cli f n hn, initializeCommandLineFlags_ok cli, ?_⟩
        rw [boundFlags_lookup, hn]
        exact Lookup_flagName cli f n hn
      · intro w config x hx
        rw [resolved_eq]
        simp [precedence, hn, hx]
  · intro hf
    subst hf
    exact ⟨by decide, fun cli => boundFlags_lookup cli .logLevel⟩

/-- C7, at `mysql.port`: the flag `mysql-port` is defined and bound, and
`--mysql-port=3308` resolves the field to 3308. -/
theorem registrar_completeness_witness :
    "mysql-port" ∈ flagDefinitions.map (fun d => d.Name) ∧
      Field.mysqlPort.resolved (overrideWorld.viper fun k => fullFile.lookup k) = .int 3308 := by
  obtain ⟨n, hn, hder, _, hmem, _, hres⟩ :=
    (registrar_completeness .mysqlPort).1 (by decide)
  have hn2 : n = "mysql-port" := by
    rw [hder (by decide)]
    decide
  subst hn2
  exact ⟨hmem, hres overrideWorld _ (.int 3308) (by decide)⟩

/-- C7, as the claim states it, fails: `log.level` is a field the validators
read, yet no flag of its derived name `log-level` is defined, its key is not
among the keys `initializeCommandLineFlags` binds, and no flag is bound to it. -/
theorem registrar_completeness_counterexample :
    Field.logLevel ∈ Field.validationOrder ∧
      flagReplacer logLevelConfigName = "log-level" ∧
      flagReplacer logLevelConfigName ∉ flagDefinitions.map (fun d => d.Name) ∧
      logLevelConfigName ∉ flagsToBind ∧
      Lookup (fun _ => some (.str "debug")) (flagReplacer logLevelConfigName) = none ∧
      (boundFlags fun _ => some (.str "debug")).lookup (toLower logLevelConfigName) = none := by
  decide

/-- C8. Defaults: whatever the sources hold for console debug, a run in which
every required field resolves returns nil; and when console debug is absent
from the three sources the stored `ConsoleDebug` is `false`, the default the
flag `debug` is defined with. -/
theorem console_debug_default (w : World) (old : Option VisualizationAPIConfig)
    (config : String → Option Value) (hfile : w.file = some config)
    (hrequired : ∀ f ∈ Field.validationOrder, f.resolved (w.viper config) ≠ f.zero) :
    (InitializeConfig w old).1 = none ∧
      (⟨"debug", .bool, .bool false⟩ : FlagDef) ∈ flagDefinitions ∧
      (absent w config .consoleDebug →
        ∃ c, (InitializeConfig w old).2 = some c ∧ c.ConsoleDebug = false) := by
  have hfu := (firstUnresolved_eq_none _).mpr hrequired
  refine ⟨?_, by decide, ?_⟩
  · rw [InitializeConfig_fst w old config hfile, hfu]
    rfl
  · intro habsent
    refine ⟨_, InitializeConfig_snd w old config hfile, ?_⟩
    have h := validate_stored_of_none _ hfu .consoleDebug
    rw [resolved_of_absent w config _ habsent] at h
    simpa [Field.stored, Field.zero, Field.typ] using h

/-- C8, at the world whose only source is the full file, which has no entry
for console debug. -/
theorem console_debug_default_witness :
    (InitializeConfig (worldOf [] [] fullFile) none).1 = none ∧
      ∃ c, (InitializeConfig (worldOf [] [] fullFile) none).2 = some c ∧
        c.ConsoleDebug = false := by
  obtain ⟨h1, _, h2⟩ := console_debug_default (worldOf [] [] fullFile) none
    (fun k => fullFile.lookup k) rfl (by decide)
  exact ⟨h1, h2 (by decide)⟩


theorem coerce_of_invalid (parseInt : String → Option Int) (f : Field) (x : Value)
    (h : invalidFor parseInt f.typ x = true) : f.coerce parseInt (some x) = f.zero := by
  unfold Field.coerce Field.zero
  cases hf : f.typ <;> rw [hf] at h <;> cases x <;>
    simp_all [invalidFor, castToInt, castToBool]

theorem groupEnvName_ne_envName (g f : Field) : g.groupEnvName ≠ f.envName := by
  cases g <;> cases f <;> decide

theorem unsetEnv_viper_resolved (w : World) (config : String → Option Value) (f : Field)
    (hsame : f.resolved ((w.unsetEnv f.envName).viper config) = f.resolved (w.viper config))
    (g : Field) :
    g.resolved ((w.unsetEnv f.envName).viper config) = g.resolved (w.viper config) := by
  by_cases hg : g = f
  · subst hg
    exact hsame
  · have hne : g.envName ≠ f.envName := fun e => hg (envName_injective g f e)
    rw [resolved_eq, resolved_eq]
    simp [precedence, World.unsetEnv, hne, groupEnvName_ne_envName g f]

theorem removeFileEntry_viper_resolved (w : World) (config : String → Option Value) (f : Field)
    (hsame : f.resolved (w.viper fun k => if k = toLower f.key then none else config k) =
      f.resolved (w.viper config))
    (g : Field) :
    g.resolved (w.viper fun k => if k = toLower f.key then none else config k) =
      g.resolved (w.viper config) := by
  by_cases hg : g = f
  · subst hg
    exact hsame
  · have hne : toLower g.key ≠ toLower f.key := fun e => hg (key_injective g f e)
    rw [resolved_eq, resolved_eq]
    simp [precedence, hne]

/-- C9, as the code has it. Invalid typed values: for an integer field
(`mysql.port`, `http_endpoint.port`) or the boolean console debug, a value of
the environment or of the file that is not syntactically valid for the type is
converted to the zero value of the type, without a crash and without
consulting a lower-ranked source: when it is the value the sources rank first,
the field resolves to `0` or `false`, and an integer field whose predecessors
resolve is rejected with its required-field ParseError. Removing an invalid
entry of the file never changes the outcome of `InitializeConfig`; removing an
invalid environment variable leaves it unchanged when the flag of the field is
given or the file has no entry for the field. -/
theorem invalid_value_resolves_to_zero (w : World) (old : Option VisualizationAPIConfig)
    (config : String → Option Value) (f : Field) (hfile : w.file = some config) :
    (invalidFor w.parseInt f.typ (.str (w.env f.envName)) = true →
      (f.flagName.bind w.cli = none → w.env f.envName ≠ "" →
        f.resolved (w.viper config) = f.zero) ∧
      (f.flagName.bind w.cli ≠ none ∨ config (toLower f.key) = none →
        InitializeConfig (w.unsetEnv f.envName) old = InitializeConfig w old)) ∧
    (∀ x, config (toLower f.key) = some x → invalidFor w.parseInt f.typ x = true →
      (f.flagName.bind w.cli = none → w.env f.envName = "" →
        f.resolved (w.viper config) = f.zero) ∧
      InitializeConfig (w.removeFileEntry (toLower f.key)) old = InitializeConfig w old) ∧
    (f.resolved (w.viper config) = f.zero → f ∈ Field.validationOrder →
      (∀ g ∈ f.before, g.resolved (w.viper config) ≠ g.zero) →
      ∃ e, f.error = some e ∧ (InitializeConfig w old).1 = some (.parse e)) := by
  refine ⟨?_, ?_, ?_⟩
  · intro hinv
    have hzero : f.flagName.bind w.cli = none → w.env f.envName ≠ "" →
        f.resolved (w.viper config) = f.zero := by
      intro hflag henv
      rw [resolved_eq]
      simp only [precedence, hflag, henv, ne_eq, not_false_eq_true, if_true]
      exact coerce_of_invalid _ _ _ hinv
    refine ⟨hzero, ?_⟩
    intro hor
    have hfile' : (w.unsetEnv f.envName).file = some config := hfile
    rw [InitializeConfig_eq _ old config hfile', InitializeConfig_eq w old config hfile]
    have hsame : f.resolved ((w.unsetEnv f.envName).viper config) =
        f.resolved (w.viper config) := by
      cases hflag : f.flagName.bind w.cli with
      | some x =>
        rw [resolved_eq, resolved_eq]
        have hflag' : f.flagName.bind (w.unsetEnv f.envName).cli = some x := hflag
        simp [precedence, hflag, hflag']
        rfl
      | none =>
        have hcfg : config (toLower f.key) = none := by
          rcases hor with h | h
          · exact absurd hflag h
          · exact h
        by_cases henv : w.env f.envName = ""
        · rw [resolved_eq, resolved_eq]
          have hflag' : f.flagName.bind (w.unsetEnv f.envName).cli = none := hflag
          simp [precedence, hflag, hflag', World.unsetEnv, henv, groupEnvName_ne_envName f f]
        · rw [hzero hflag henv, resolved_eq]
          have hflag' : (f.flagName.bind fun a => w.cli a) = none := hflag
          simp [precedence, hflag', World.unsetEnv, hcfg, groupEnvName_ne_envName f f]
          exact coerce_none _ _
    rw [validate_congr _ _ (unsetEnv_viper_resolved w config f hsame)]
  · intro x hx hinv
    have hzero : f.flagName.bind w.cli = none → w.env f.envName = "" →
        f.resolved (w.viper config) = f.zero := by
      intro hflag henv
      rw [resolved_eq]
      by_cases hgroup : w.env f.groupEnvName = ""
      · simp only [precedence, hflag, henv, hgroup, hx, ne_eq, not_true_eq_false, if_false]
        exact coerce_of_invalid _ _ _ hinv
      · simp only [precedence, hflag, henv, hgroup, ne_eq, not_true_eq_false, if_false,
          not_false_eq_true, if_true]
        exact coerce_none _ _
    refine ⟨hzero, ?_⟩
    have hfile' : (w.removeFileEntry (toLower f.key)).file =
        some fun k => if k = toLower f.key then none else config k := by
      simp [World.removeFileEntry, hfile]
    rw [InitializeConfig_eq _ old _ hfile', InitializeConfig_eq w old config hfile]
    have hv : (w.removeFileEntry (toLower f.key)).viper
        (fun k => if k = toLower f.key then none else config k) =
        w.viper (fun k => if k = toLower f.key then none else config k) := rfl
    rw [hv]
    have hsame : f.resolved (w.viper fun k => if k = toLower f.key then none else config k) =
        f.resolved (w.viper config) := by
      cases hflag : f.flagName.bind w.cli with
      | some y =>
        rw [resolved_eq, resolved_eq]
        simp [precedence, hflag]
      | none =>
        by_cases henv : w.env f.envName = ""
        · rw [hzero hflag henv, resolved_eq]
          simp [precedence, hflag, henv]
          exact coerce_none _ _
        · rw [resolved_eq, resolved_eq]
          simp [precedence, hflag, henv]
    rw [validate_congr _ _ (removeFileEntry_viper_resolved w config f hsame)]
  · intro hz hf hbefore
    have hne := validationOrder_error f hf
    cases he : f.error with
    | none => exact absurd he hne
    | some e =>
      refine ⟨e, rfl, ?_⟩
      rw [InitializeConfig_error_of_first w old config f hfile hf hbefore hz, he]
      rfl

/-- C9, at `MYSQL_PORT=abc` over a file without `mysql.port`: the field
resolves to 0 and unsetting the variable leaves the outcome unchanged. -/
theorem invalid_value_resolves_to_zero_witness :
    Field.mysqlPort.resolved
        ((worldOf [] [("MYSQL_PORT", "abc")] (fileWithout ["mysql.port"])).viper
          fun k => (fileWithout ["mysql.port"]).lookup k) = .int 0 ∧
      InitializeConfig
          ((worldOf [] [("MYSQL_PORT", "abc")] (fileWithout ["mysql.port"])).unsetEnv
            "MYSQL_PORT") none =
        InitializeConfig (worldOf [] [("MYSQL_PORT", "abc")] (fileWithout ["mysql.port"]))
          none := by
  obtain ⟨h1, _, _⟩ :=
    invalid_value_resolves_to_zero (worldOf [] [("MYSQL_PORT", "abc")] (fileWithout ["mysql.port"]))
      none (fun k => (fileWithout ["mysql.port"]).lookup k) .mysqlPort rfl
  obtain ⟨h2, h3⟩ := h1 (by decide)
  exact ⟨h2 (by decide) (by decide), h3 (Or.inr (by decide))⟩

/-- C9, as the claim states it, fails: with `MYSQL_PORT=abc` in the environment
and `mysql.port = 3306` in the file, `InitializeConfig` returns the ParseError
of `mysql.port`; with the variable unset it returns nil and stores 3306. -/
theorem invalid_value_counterexample :
    invalidFor invalidEnvPortWorld.parseInt .int (.str (invalidEnvPortWorld.env "MYSQL_PORT")) =
        true ∧
      (InitializeConfig invalidEnvPortWorld none).1 =
        some (.parse (NewParseError "MysqlPort" "port" "mysql" "MYSQL_PORT" "--mysql-port")) ∧
      (InitializeConfig (invalidEnvPortWorld.unsetEnv "MYSQL_PORT") none).1 = none ∧
      ((InitializeConfig (invalidEnvPortWorld.unsetEnv "MYSQL_PORT") none).2.map
        fun c => c.MysqlPort) = some 3306 := by
  decide

end Config

namespace Main

open Config

/-- C10. Version path: whenever `--version` is given, whatever the other
flags, the environment and the file hold, `main` prints the version
identifiers and exits with status 0; `InitializeConfig` is not called (the
stored configuration is left as it was), so no ParseError arises, and no
collaborator is constructed. -/
theorem version_path (version gitVersion : String) (w : World)
    (singleToneConfig : Option VisualizationAPIConfig) (co : Collaborators) :
    main true version gitVersion w singleToneConfig co =
        ([.print ("visualization-api version " ++ version ++ " " ++ gitVersion ++ " \n"),
          .exit 0], singleToneConfig) ∧
      Event.initializeConfig ∉ (main true version gitVersion w singleToneConfig co).1 ∧
      ∀ ev ∈ (main true version gitVersion w singleToneConfig co).1,
        (∃ s, ev = .print s) ∨ ev = .exit 0 := by
  have h : main true version gitVersion w singleToneConfig co =
      ([.print ("visualization-api version " ++ version ++ " " ++ gitVersion ++ " \n"),
        .exit 0], singleToneConfig) := by
    simp [main]
  rw [h]
  refine ⟨rfl, by simp, ?_⟩
  intro ev hev
  simp only [List.mem_cons, List.mem_singleton, List.not_mem_nil, or_false] at hev
  rcases hev with h1 | h1
  · exact Or.inl ⟨_, h1⟩
  · exact Or.inr h1


/-- C11, on the code. Shutdown Guard effect order: on a signal the handler logs
a message, takes the lock, closes the file, prints the error of the close if
there is one, and ends the process with status 0. The release of the lock is
deferred and `os.Exit` does not run deferred calls: the lock is never released,
so the effects are not the order lock, close, unlock, exit. -/
theorem shutdown_effect_order (s : Signal) (closeError : Option String) :
    cleanupOnExit s closeError =
        [.logInfo s, .lock, .close] ++
          (match closeError with
            | some err => [.println err]
            | none => []) ++ [.exit 0] ∧
      Effect.unlock ∉ cleanupOnExit s closeError ∧
      ¬ shutdownOrderOfSpec.Sublist (cleanupOnExit s closeError) := by
  have hmem : Effect.unlock ∉ cleanupOnExit s closeError := by
    cases closeError with
    | none => cases s <;> decide
    | some err =>
      have h : cleanupOnExit s (some err) =
          [.logInfo s, .lock, .close, .println err, .exit 0] := rfl
      rw [h]
      simp
  refine ⟨?_, hmem, ?_⟩
  · cases closeError <;> rfl
  · intro hsub
    exact hmem (hsub.subset (by simp [shutdownOrderOfSpec]))


/-- C12. Unconditional shutdown: once the handler has received the signal, the
last thing it does is to end the process, and with no other status than 0,
whether closing the log file returns an error or not; an error of the close is
printed just before and changes nothing else, and nothing is printed when
there is none. -/
theorem unconditional_shutdown (s : Signal) (closeError : Option String) :
    (cleanupOnExit s closeError).getLast? = some (.exit 0) ∧
      (∀ code, Effect.exit code ∈ cleanupOnExit s closeError → code = 0) ∧
      (∀ err, cleanupOnExit s (some err) =
        (cleanupOnExit s none).dropLast ++ [.println err, .exit 0]) ∧
      (∀ err, Effect.println err ∉ cleanupOnExit s none) := by
  have hnone : cleanupOnExit s none = [.logInfo s, .lock, .close, .exit 0] := rfl
  have hsome : ∀ err, cleanupOnExit s (some err) =
      [.logInfo s, .lock, .close, .println err, .exit 0] := fun _ => rfl
  refine ⟨?_, ?_, ?_, ?_⟩
  · cases closeError with
    | none => rw [hnone]; rfl
    | some err => rw [hsome]; rfl
  · intro code hcode
    cases closeError with
    | none =>
      rw [hnone] at hcode
      simpa using hcode
    | some err =>
      rw [hsome] at hcode
      simpa using hcode
  · intro err
    rw [hnone, hsome]
    rfl
  · intro err
    rw [hnone]
    simp

end Main

namespace Config

theorem InitializeConfig_of_file_none (w : World) (old : Option VisualizationAPIConfig)
    (h : w.file = none) : InitializeConfig w old = (some .read, some {}) := by
  unfold InitializeConfig
  rw [initializeCommandLineFlags_ok]
  simp only [h]

theorem validate_stored_cases (v : Viper) (g : Field) :
    g.stored (validate v).2 = g.resolved v ∨ g.stored (validate v).2 = g.zero := by
  cases hfu : firstUnresolved v with
  | none => exact Or.inl (validate_stored_of_none v hfu g)
  | some f =>
    rw [validate_stored_of_some v f hfu g]
    by_cases hg : g ∈ f.before
    · simp [hg]
    · simp [hg]

/-- C13. Initialization overwrites the Config Store: a run of `InitializeConfig`
does not depend on what the store held, it starts from a default initialised
struct, so `GetConfig` after the run is non-nil and a function of the sources
of that run only: it is the default struct when the file cannot be read, and
otherwise every member holds the value resolved in this run or the zero
value. No value of an earlier run survives. -/
theorem initialization_overwrites_store (w : World)
    (old old' : Option VisualizationAPIConfig) :
    InitializeConfig w old = InitializeConfig w old' ∧
      (∃ c, GetConfig (InitializeConfig w old).2 = some c) ∧
      (w.file = none → GetConfig (InitializeConfig w old).2 = some {}) ∧
      (∀ config, w.file = some config →
        ∃ c, GetConfig (InitializeConfig w old).2 = some c ∧
          ∀ g : Field, g.stored c = g.resolved (w.viper config) ∨ g.stored c = g.zero) := by
  refine ⟨rfl, ?_, ?_, ?_⟩
  · cases hfile : w.file with
    | none => exact ⟨_, by rw [InitializeConfig_of_file_none w old hfile]; rfl⟩
    | some config => exact ⟨_, InitializeConfig_snd w old config hfile⟩
  · intro hfile
    rw [InitializeConfig_of_file_none w old hfile]
    rfl
  · intro config hfile
    exact ⟨_, InitializeConfig_snd w old config hfile, validate_stored_cases _⟩

/-- C13, at a second run that fails on `log.path` after a first run that
succeeded on the full file: the store holds the default struct. -/
theorem initialization_overwrites_store_witness :
    (InitializeConfig (worldOf [] [] fullFile) none).1 = none ∧
      GetConfig (InitializeConfig noLogPathNoMysqlHostWorld
        (InitializeConfig (worldOf [] [] fullFile) none).2).2 = some {} := by
  refine ⟨by decide, ?_⟩
  rw [(initialization_overwrites_store noLogPathNoMysqlHostWorld
    (InitializeConfig (worldOf [] [] fullFile) none).2 none).1]
  decide

/-- C15. Field mapping on success: whenever `InitializeConfig` returns nil, the
file was read and each of the fifteen members of the stored configuration
holds the value viper resolves for its own key. -/
theorem field_mapping_on_success (w : World) (old : Option VisualizationAPIConfig)
    (hnil : (InitializeConfig w old).1 = none) :
    ∃ config c, w.file = some config ∧ GetConfig (InitializeConfig w old).2 = some c ∧
      c.LogFilePath = (w.viper config).GetString "log.path" ∧
      c.LogLevel = (w.viper config).GetString "log.level" ∧
      c.MysqlHost = (w.viper config).GetString "mysql.host" ∧
      c.MysqlUsername = (w.viper config).GetString "mysql.username" ∧
      c.MysqlPassword = (w.viper config).GetString "mysql.password" ∧
      c.MysqlDatabaseName = (w.viper config).GetString "mysql.database" ∧
      c.MysqlPort = (w.viper config).GetInt "mysql.port" ∧
      c.HTTPPort = (w.viper config).GetInt "http_endpoint.port" ∧
      c.JWTSecret = (w.viper config).GetString "http_endpoint.jwt_secret" ∧
      c.OpenstackAuthURL = (w.viper config).GetString "openstack.auth_url" ∧
      c.OpenstackUsername = (w.viper config).GetString "openstack.username" ∧
      c.OpenstackPassword = (w.viper config).GetString "openstack.password" ∧
      c.OpenstackProject = (w.viper config).GetString "openstack.project_name" ∧
      c.OpenstackDomain = (w.viper config).GetString "openstack.domain_name" ∧
      c.ConsoleDebug = (w.viper config).GetBool "logging.consoleDebug" := by
  cases hfile : w.file with
  | none =>
    rw [InitializeConfig_of_file_none w old hfile] at hnil
    cases hnil
  | some config =>
    have hfu : firstUnresolved (w.viper config) = none := by
      rw [InitializeConfig_fst w old config hfile] at hnil
      cases hfu : firstUnresolved (w.viper config) with
      | none => rfl
      | some f =>
        have hne := validationOrder_error f (firstUnresolved_some _ f hfu).1
        rw [hfu] at hnil
        cases he : f.error with
        | none => exact absurd he hne
        | some e => simp [he] at hnil
    have hs := fun g => validate_stored_of_none (w.viper config) hfu g
    refine ⟨config, _, rfl, InitializeConfig_snd w old config hfile, ?_, ?_, ?_, ?_, ?_, ?_, ?_,
      ?_, ?_, ?_, ?_, ?_, ?_, ?_, ?_⟩
    · exact Value.str.inj (hs .logPath)
    · exact Value.str.inj (hs .logLevel)
    · exact Value.str.inj (hs .mysqlHost)
    · exact Value.str.inj (hs .mysqlUser)
    · exact Value.str.inj (hs .mysqlPassword)
    · exact Value.str.inj (hs .mysqlDatabase)
    · exact Value.int.inj (hs .mysqlPort)
    · exact Value.int.inj (hs .httpPort)
    · exact Value.str.inj (hs .httpSecret)
    · exact Value.str.inj (hs .openstackAuthURL)
    · exact Value.str.inj (hs .openstackUsername)
    · exact Value.str.inj (hs .openstackPassword)
    · exact Value.str.inj (hs .openstackProject)
    · exact Value.str.inj (hs .openstackDomain)
    · exact Value.bool.inj (hs .consoleDebug)

/-- C15, at the scenario of the full override: the run succeeds and the port
of the database is the one of the flag. -/
theorem field_mapping_on_success_witness :
    ∃ c, GetConfig (InitializeConfig overrideWorld none).2 = some c ∧
      c.MysqlPort = (overrideWorld.viper fun k => fullFile.lookup k).GetInt "mysql.port" := by
  obtain ⟨config, c, hfile, hc, _, _, _, _, _, _, hport, _⟩ :=
    field_mapping_on_success overrideWorld none (by decide)
  have hcfg : config = fun k => fullFile.lookup k := by
    have h : overrideWorld.file = some fun k => fullFile.lookup k := rfl
    rw [h] at hfile
    exact (Option.some.inj hfile).symm
  subst hcfg
  exact ⟨c, hc, hport⟩


/-- C16. State left by a failed run: when `InitializeConfig` returns a
ParseError, it is the one of a required field; `GetConfig` is then non-nil,
holds the resolved values of the fields that precede that field in validation
order, and the zero value in that field and in every later one; `ConsoleDebug`
is `false`, whatever the flag `--debug`. -/
theorem state_after_failed_run (w : World) (old : Option VisualizationAPIConfig)
    (e : ParseError) (hfail : (InitializeConfig w old).1 = some (.parse e)) :
    ∃ config f c, w.file = some config ∧ f ∈ Field.validationOrder ∧ f.error = some e ∧
      GetConfig (InitializeConfig w old).2 = some c ∧
      (∀ g ∈ f.before, g.stored c = g.resolved (w.viper config) ∧ g.stored c ≠ g.zero) ∧
      (∀ g, g ∉ f.before → g.stored c = g.zero) ∧
      f.stored c = f.zero ∧
      c.ConsoleDebug = false := by
  cases hfile : w.file with
  | none =>
    rw [InitializeConfig_of_file_none w old hfile] at hfail
    cases hfail
  | some config =>
    rw [InitializeConfig_fst w old config hfile] at hfail
    cases hfu : firstUnresolved (w.viper config) with
    | none =>
      rw [hfu] at hfail
      cases hfail
    | some f =>
      obtain ⟨hmem, hz, ht⟩ := firstUnresolved_some _ f hfu
      rw [hfu] at hfail
      have hne := validationOrder_error f hmem
      have hfe : f.error = some e := by
        cases he : f.error with
        | none => exact absurd he hne
        | some e' =>
          simp only [Option.bind, he, Option.map] at hfail
          cases hfail
          rfl
      have hs := fun g => validate_stored_of_some (w.viper config) f hfu g
      have hnb : ∀ g, g ∉ f.before → g.stored (validate (w.viper config)).2 = g.zero := by
        intro g hg
        rw [hs g]
        simp [hg]
      have hfnb : f ∉ f.before := by
        intro hm
        rw [← ht] at hm
        have := List.mem_takeWhile_imp hm
        simp [hz] at this
      have hdnb : Field.consoleDebug ∉ f.before := by
        intro hm
        rw [← ht] at hm
        exact consoleDebug_not_mem (List.takeWhile_subset _ hm)
      refine ⟨config, f, _, rfl, hmem, hfe, InitializeConfig_snd w old config hfile, ?_, hnb,
        hnb f hfnb, ?_⟩
      · intro g hg
        have hval : g.resolved (w.viper config) ≠ g.zero := by
          rw [← ht] at hg
          have := List.mem_takeWhile_imp hg
          simpa using this
        have hst : g.stored (validate (w.viper config)).2 = g.resolved (w.viper config) := by
          rw [hs g]
          simp [hg]
        exact ⟨hst, by rw [hst]; exact hval⟩
      · exact Value.bool.inj (hnb .consoleDebug hdnb)

/-- C16, with `--debug` given and `mysql.host` missing: the run fails on
`mysql.host`, the log path is stored, the database port is not, and
`ConsoleDebug` is `false`. -/
theorem state_after_failed_run_witness :
    ∃ c, GetConfig (InitializeConfig
        (worldOf [("debug", .bool true)] [] (fileWithout ["mysql.host"])) none).2 = some c ∧
      c.LogFilePath = "/var/log/visualization-api.log" ∧ c.MysqlPort = 0 ∧
      c.ConsoleDebug = false := by
  have hrun : InitializeConfig
      (worldOf [("debug", .bool true)] [] (fileWithout ["mysql.host"])) none =
      (some (.parse (NewParseError "mysqlHost" "host" "mysql" "MYSQL_HOST" "--mysql-host")),
        some { LogFilePath := "/var/log/visualization-api.log", LogLevel := "info" }) := by
    decide
  obtain ⟨_, _, c, _, _, _, hc, _, _, _, hdebug⟩ :=
    state_after_failed_run (worldOf [("debug", .bool true)] [] (fileWithout ["mysql.host"])) none
      (NewParseError "mysqlHost" "host" "mysql" "MYSQL_HOST" "--mysql-host")
      (by rw [hrun])
  refine ⟨c, hc, ?_, ?_, hdebug⟩
  · rw [hrun] at hc
    cases hc
    rfl
  · rw [hrun] at hc
    cases hc
    rfl

theorem Lookup_of_defined (cli : String → Option Value) (n : String)
    (h : n ∈ flagDefinitions.map fun d => d.Name) : ∃ flag, Lookup cli n = some flag := by
  unfold Lookup
  cases hfind : flagDefinitions.find? (fun d => d.Name = n) with
  | none =>
    obtain ⟨d, hd, hdn⟩ := List.mem_map.mp h
    have := List.find?_eq_none.mp hfind d hd
    simp [hdn] at this
  | some d => exact ⟨_, rfl⟩

/-- C17. Flag binding cannot fail on a missing flag: for every key of
`flagsToBind`, and for `debug`, the flag name `initializeCommandLineFlags`
looks up is the name of a flag the package defines, so every lookup yields a
flag and, whatever the command line and the flags bound before, the binding
loop reaches its end and `initializeCommandLineFlags` returns nil. -/
theorem flag_binding_cannot_fail (cli : String → Option Value)
    (pflags : List (String × Flag)) :
    (∀ key ∈ flagsToBind, flagReplacer key ∈ flagDefinitions.map fun d => d.Name) ∧
      "debug" ∈ (flagDefinitions.map fun d => d.Name) ∧
      (∀ key ∈ flagsToBind, ∃ flag, Lookup cli (flagReplacer key) = some flag) ∧
      (∃ flag, Lookup cli "debug" = some flag) ∧
      (∃ bound, bindFlags cli flagsToBind pflags = .ok bound) ∧
      (∃ bound, initializeCommandLineFlags cli pflags = .ok bound) := by
  have h1 : ∀ key ∈ flagsToBind, flagReplacer key ∈ flagDefinitions.map fun d => d.Name := by
    decide
  have h2 : "debug" ∈ (flagDefinitions.map fun d => d.Name) := by decide
  exact ⟨h1, h2, fun key hkey => Lookup_of_defined cli _ (h1 key hkey),
    Lookup_of_defined cli _ h2, ⟨_, rfl⟩, ⟨_, rfl⟩⟩

/-- C17, at the command line `--mysql-port=3308`: the thirteen keys and
`logging.consoleDebug` are bound. -/
theorem flag_binding_cannot_fail_witness :
    ∃ bound, initializeCommandLineFlags overrideWorld.cli [] = .ok bound ∧
      bound.length = 14 ∧
      ∃ flag, Lookup overrideWorld.cli (flagReplacer mysqlPortConfigName) = some flag := by
  obtain ⟨_, _, hl, _, _, bound, hb⟩ := flag_binding_cannot_fail overrideWorld.cli []
  refine ⟨bound, hb, ?_, hl mysqlPortConfigName (by decide)⟩
  have h : initializeCommandLineFlags overrideWorld.cli [] = .ok (boundFlags overrideWorld.cli) :=
    initializeCommandLineFlags_ok _
  rw [h] at hb
  cases hb
  rfl


end Config
